import Mathlib

/-!
The response builder of package `alexaresponse`.

A shallow embedding of `alexaresponse/responsebuilder.go`.

The Go code works through pointers: the builder is a `*Builder`, its optional
sub-structures are `*OutputSpeech`, `*Card`, `*Reprompt`, and the lazy setters
write through those pointers.  The embedding therefore keeps an explicit heap:
one list of cells per struct type, a pointer being `none` (nil) or `some a`
with `a` an index into the list of its type.  Every method is a computation
over the heap that either returns normally or stops with a runtime fault.

Allocation (`&T{...}`, or `&x` of a parameter `x`) appends a cell, so a fresh
address never coincides with one already in use.  Values of type `interface{}`
and the elements of `[]interface{}` are kept as plain values: the package only
stores and copies them.  The declarations of `Response`, `Body`, `OutputSpeech`,
`Card`, `Image` and `Reprompt` are not in the source file; their fields are
taken from the way `responsebuilder.go` uses them.
-/

namespace Alexaresponse

/-- The ways a Go statement of this package can stop abnormally. `nilDereference`
is the runtime panic on a field access through a nil pointer; `invalidAddress`
is a read or write at an address that was never allocated, which Go's memory
safety excludes and which appears here only because addresses are numbers. -/
inductive Fault where
  | nilDereference
  | invalidAddress
deriving DecidableEq, Repr

/-- A Go pointer: `none` is nil, `some a` is the address `a` of a cell. -/
abbrev Ptr := Option Nat

/-- A Go `interface{}` value, as far as JSON-like data goes. `map` is a non-nil
`map[string]interface{}` given by its entries, `slice` a `[]interface{}`. The
builder only stores and copies such values, it never looks inside them. -/
inductive Any where
  | nil : Any
  | bool : Bool → Any
  | int : Int → Any
  | string : String → Any
  | slice : List Any → Any
  | map : List (String × Any) → Any

instance : Inhabited Any := ⟨Any.nil⟩

/-- Modelled from the spec: the declaration of `OutputSpeech` is not part of the
source file; its fields are the ones `responsebuilder.go` assigns (`Type`,
`Text`, `Ssml`, `PlayBehavior`, all strings). The field `Type` is written
`Type_`. A composite literal `OutputSpeech{}` is the default value. -/
structure OutputSpeech where
  Type_ : String := ""
  Text : String := ""
  Ssml : String := ""
  PlayBehavior : String := ""
deriving DecidableEq, Repr, Inhabited

/-- Modelled from the spec: the declaration of `Image` is not part of the source
file; the spec describes it as a pair of a small and a large image URL. -/
structure Image where
  SmallImageURL : String := ""
  LargeImageURL : String := ""
deriving DecidableEq, Repr, Inhabited

/-- Modelled from the spec: the declaration of `Card` is not part of the source
file; its fields are the ones `responsebuilder.go` assigns (`Type`, `Title`,
`Content`, `Text` strings and `Image`, a `*Image`). -/
structure Card where
  Type_ : String := ""
  Title : String := ""
  Content : String := ""
  Text : String := ""
  Image : Ptr := none
deriving DecidableEq, Repr, Inhabited

/-- Modelled from the spec: the declaration of `Reprompt` is not part of the
source file; `responsebuilder.go` builds it with one field, `OutputSpeech`, a
`*OutputSpeech`. -/
structure Reprompt where
  OutputSpeech : Ptr := none
deriving DecidableEq, Repr, Inhabited

/-- Modelled from the spec: the declaration of `Body` is not part of the source
file; its fields are the ones `Build` fills. `Directives` is a slice, `none`
being the nil slice. -/
structure Body where
  OutputSpeech : Ptr := none
  Card : Ptr := none
  Reprompt : Ptr := none
  Directives : Option (List Any) := none
  ShouldEndSession : Bool := false

/-- Modelled from the spec: the declaration of `Response` is not part of the
source file; its fields are the ones `Build` fills. `Response` is a `*Body`. -/
structure Response where
  Version : String := ""
  SessionAttributes : Any := Any.nil
  Response : Ptr := none

/-- The struct `Builder` (lines 4-12). -/
structure Builder where
  response : Response := {}
  sessionAttributes : Any := Any.nil
  outputSpeech : Ptr := none
  card : Ptr := none
  reprompt : Ptr := none
  directives : Option (List Any) := none
  shouldEndSession : Bool := false

/-- The heap: for each struct type that the package reaches through a pointer,
the list of the cells allocated so far. Address `a` of a type is position `a`
of its list. -/
structure Heap where
  builder : List Builder := []
  speech : List OutputSpeech := []
  card : List Card := []
  image : List Image := []
  reprompt : List Reprompt := []
  body : List Body := []

/-- A computation of the package: it runs on a heap and either returns a value
and the new heap, or faults. -/
abbrev M (α : Type) := Heap → Except Fault (α × Heap)

/-- Return a value, heap untouched. -/
def M.ret {α : Type} (a : α) : M α := fun h => Except.ok (a, h)

/-- Sequencing: run `x`, then `f` on its value in the heap it left. -/
def M.andThen {α β : Type} (x : M α) (f : α → M β) : M β := fun h =>
  match x h with
  | Except.error e => Except.error e
  | Except.ok (a, h') => f a h'

instance : Monad M where
  pure := M.ret
  bind := M.andThen

/-- Read a cell of a list of cells through a pointer. -/
def readCell {α : Type} (cells : List α) (p : Ptr) : Except Fault α :=
  match p with
  | none => Except.error Fault.nilDereference
  | some a =>
    match cells[a]? with
    | none => Except.error Fault.invalidAddress
    | some v => Except.ok v

/-- Overwrite a cell of a list of cells through a pointer. -/
def writeCell {α : Type} (cells : List α) (p : Ptr) (v : α) : Except Fault (List α) :=
  match p with
  | none => Except.error Fault.nilDereference
  | some a => if a < cells.length then Except.ok (cells.set a v) else Except.error Fault.invalidAddress

/-- Read the builder `*b`. -/
def getBuilder (b : Ptr) : M Builder := fun h =>
  match readCell h.builder b with
  | Except.error e => Except.error e
  | Except.ok v => Except.ok (v, h)

/-- Assign to a field of `*b`: the cell becomes `f` of what it was. -/
def setBuilder (b : Ptr) (f : Builder → Builder) : M Unit := fun h =>
  match readCell h.builder b with
  | Except.error e => Except.error e
  | Except.ok v =>
    match writeCell h.builder b (f v) with
    | Except.error e => Except.error e
    | Except.ok cells => Except.ok ((), { h with builder := cells })

/-- Assign to a field of the output speech `*p`. -/
def setSpeech (p : Ptr) (f : OutputSpeech → OutputSpeech) : M Unit := fun h =>
  match readCell h.speech p with
  | Except.error e => Except.error e
  | Except.ok v =>
    match writeCell h.speech p (f v) with
    | Except.error e => Except.error e
    | Except.ok cells => Except.ok ((), { h with speech := cells })

/-- Read the reprompt `*p`. -/
def getReprompt (p : Ptr) : M Reprompt := fun h =>
  match readCell h.reprompt p with
  | Except.error e => Except.error e
  | Except.ok v => Except.ok (v, h)

/-- Allocation `&Builder{...}`: a fresh cell at the end of the list. -/
def newBuilder (v : Builder) : M Ptr := fun h =>
  Except.ok (some h.builder.length, { h with builder := h.builder ++ [v] })

/-- Allocation `&OutputSpeech{...}`, also `&outputSpeech` of a parameter. -/
def newSpeech (v : OutputSpeech) : M Ptr := fun h =>
  Except.ok (some h.speech.length, { h with speech := h.speech ++ [v] })

/-- Allocation `&Card{...}`, also `&card` of a parameter. -/
def newCard (v : Card) : M Ptr := fun h =>
  Except.ok (some h.card.length, { h with card := h.card ++ [v] })

/-- Allocation `&image` of a parameter. -/
def newImage (v : Image) : M Ptr := fun h =>
  Except.ok (some h.image.length, { h with image := h.image ++ [v] })

/-- Allocation `&Reprompt{...}`, also `&reprompt` of a parameter. -/
def newReprompt (v : Reprompt) : M Ptr := fun h =>
  Except.ok (some h.reprompt.length, { h with reprompt := h.reprompt ++ [v] })

/-- Allocation `&Body{...}`. -/
def newBody (v : Body) : M Ptr := fun h =>
  Except.ok (some h.body.length, { h with body := h.body ++ [v] })

/-! ## The methods, in source order -/

/-- The function `NewBuilder` (lines 15-20): a fresh builder whose session
attributes are an empty non-nil map and whose end-of-session flag is set. -/
def NewBuilder : M Ptr :=
  newBuilder { sessionAttributes := Any.map [], shouldEndSession := true }

/-- The method `WithAttributes` (lines 23-26). -/
def WithAttributes (b : Ptr) (attributes : Any) : M Ptr := do
  setBuilder b (fun s => { s with sessionAttributes := attributes })
  return b

/-- The method `WithOutputSpeech` (lines 29-32): the parameter is copied into a
fresh cell and the builder points to it. -/
def WithOutputSpeech (b : Ptr) (outputSpeech : OutputSpeech) : M Ptr := do
  let p ← newSpeech outputSpeech
  setBuilder b (fun s => { s with outputSpeech := p })
  return b

/-- The method `WithTextOutputSpeech` (lines 35-42). -/
def WithTextOutputSpeech (b : Ptr) (text : String) : M Ptr := do
  if (← getBuilder b).outputSpeech = none then
    let p ← newSpeech {}
    setBuilder b (fun s => { s with outputSpeech := p })
  setSpeech (← getBuilder b).outputSpeech (fun o => { o with Type_ := "PlainText" })
  setSpeech (← getBuilder b).outputSpeech (fun o => { o with Text := text })
  return b

/-- The method `WithSsmlOutputSpeech` (lines 45-52). -/
def WithSsmlOutputSpeech (b : Ptr) (ssml : String) : M Ptr := do
  if (← getBuilder b).outputSpeech = none then
    let p ← newSpeech {}
    setBuilder b (fun s => { s with outputSpeech := p })
  setSpeech (← getBuilder b).outputSpeech (fun o => { o with Type_ := "ssml" })
  setSpeech (← getBuilder b).outputSpeech (fun o => { o with Ssml := ssml })
  return b

/-- The method `OutputSpeechPlayBehavior` (lines 55-61). -/
def OutputSpeechPlayBehavior (b : Ptr) (behavior : String) : M Ptr := do
  if (← getBuilder b).outputSpeech = none then
    let p ← newSpeech {}
    setBuilder b (fun s => { s with outputSpeech := p })
  setSpeech (← getBuilder b).outputSpeech (fun o => { o with PlayBehavior := behavior })
  return b

/-- The method `WithCard` (lines 64-67). -/
def WithCard (b : Ptr) (card : Card) : M Ptr := do
  let p ← newCard card
  setBuilder b (fun s => { s with card := p })
  return b

/-- The method `WithSimpleCard` (lines 70-77). -/
def WithSimpleCard (b : Ptr) (title : String) (content : String) : M Ptr := do
  let p ← newCard { Type_ := "Simple", Title := title, Content := content }
  setBuilder b (fun s => { s with card := p })
  return b

/-- The method `WithStandardCard` (lines 80-87). -/
def WithStandardCard (b : Ptr) (title : String) (text : String) (image : Image) : M Ptr := do
  let i ← newImage image
  let p ← newCard { Title := title, Text := text, Image := i }
  setBuilder b (fun s => { s with card := p })
  return b

/-- The method `WithReprompt` (lines 90-93). -/
def WithReprompt (b : Ptr) (reprompt : Reprompt) : M Ptr := do
  let p ← newReprompt reprompt
  setBuilder b (fun s => { s with reprompt := p })
  return b

/-- The method `WithTextReprompt` (lines 96-105). -/
def WithTextReprompt (b : Ptr) (text : String) : M Ptr := do
  if (← getBuilder b).reprompt = none then
    let o ← newSpeech {}
    let p ← newReprompt { OutputSpeech := o }
    setBuilder b (fun s => { s with reprompt := p })
  setSpeech (← getReprompt (← getBuilder b).reprompt).OutputSpeech
    (fun o => { o with Type_ := "PlainText" })
  setSpeech (← getReprompt (← getBuilder b).reprompt).OutputSpeech
    (fun o => { o with Text := text })
  return b

/-- The method `WithSsmlReprompt` (lines 108-117). -/
def WithSsmlReprompt (b : Ptr) (ssml : String) : M Ptr := do
  if (← getBuilder b).reprompt = none then
    let o ← newSpeech {}
    let p ← newReprompt { OutputSpeech := o }
    setBuilder b (fun s => { s with reprompt := p })
  setSpeech (← getReprompt (← getBuilder b).reprompt).OutputSpeech
    (fun o => { o with Type_ := "ssml" })
  setSpeech (← getReprompt (← getBuilder b).reprompt).OutputSpeech
    (fun o => { o with Ssml := ssml })
  return b

/-- The method `RepromptPlayBehavior` (lines 120-128). -/
def RepromptPlayBehavior (b : Ptr) (behavior : String) : M Ptr := do
  if (← getBuilder b).reprompt = none then
    let o ← newSpeech {}
    let p ← newReprompt { OutputSpeech := o }
    setBuilder b (fun s => { s with reprompt := p })
  setSpeech (← getReprompt (← getBuilder b).reprompt).OutputSpeech
    (fun o => { o with PlayBehavior := behavior })
  return b

/-- The method `WithDirectives` (lines 131-134). -/
def WithDirectives (b : Ptr) (directives : Option (List Any)) : M Ptr := do
  setBuilder b (fun s => { s with directives := directives })
  return b

/-- The method `ShouldEndSession` (lines 137-140). -/
def ShouldEndSession (b : Ptr) (boolean : Bool) : M Ptr := do
  setBuilder b (fun s => { s with shouldEndSession := boolean })
  return b

/-- The method `Build` (lines 143-155): the fields of the builder are read, the
body is allocated, the response is returned by value. The pointers of the
builder are copied as pointers. -/
def Build (b : Ptr) : M Response := do
  let s ← getBuilder b
  let body ← newBody {
    OutputSpeech := s.outputSpeech, Card := s.card, Reprompt := s.reprompt,
    Directives := s.directives, ShouldEndSession := s.shouldEndSession }
  return { Version := "1.0", SessionAttributes := s.sessionAttributes, Response := body }

/-! ## Sequences of calls -/

/-- One call of a public method on a builder, with its arguments. -/
inductive Op where
  | WithAttributes (attributes : Any)
  | WithOutputSpeech (outputSpeech : OutputSpeech)
  | WithTextOutputSpeech (text : String)
  | WithSsmlOutputSpeech (ssml : String)
  | OutputSpeechPlayBehavior (behavior : String)
  | WithCard (card : Card)
  | WithSimpleCard (title : String) (content : String)
  | WithStandardCard (title : String) (text : String) (image : Image)
  | WithReprompt (reprompt : Reprompt)
  | WithTextReprompt (text : String)
  | WithSsmlReprompt (ssml : String)
  | RepromptPlayBehavior (behavior : String)
  | WithDirectives (directives : Option (List Any))
  | ShouldEndSession (boolean : Bool)
  | Build

/-- The call `op` on the builder `b`. Every method but `Build` returns its
receiver; the response of a `Build` is dropped here and the receiver handed on,
so that calls can be put in sequence. -/
def Op.call (b : Ptr) : Op → M Ptr
  | Op.WithAttributes attributes => Alexaresponse.WithAttributes b attributes
  | Op.WithOutputSpeech outputSpeech => Alexaresponse.WithOutputSpeech b outputSpeech
  | Op.WithTextOutputSpeech text => Alexaresponse.WithTextOutputSpeech b text
  | Op.WithSsmlOutputSpeech ssml => Alexaresponse.WithSsmlOutputSpeech b ssml
  | Op.OutputSpeechPlayBehavior behavior => Alexaresponse.OutputSpeechPlayBehavior b behavior
  | Op.WithCard card => Alexaresponse.WithCard b card
  | Op.WithSimpleCard title content => Alexaresponse.WithSimpleCard b title content
  | Op.WithStandardCard title text image => Alexaresponse.WithStandardCard b title text image
  | Op.WithReprompt reprompt => Alexaresponse.WithReprompt b reprompt
  | Op.WithTextReprompt text => Alexaresponse.WithTextReprompt b text
  | Op.WithSsmlReprompt ssml => Alexaresponse.WithSsmlReprompt b ssml
  | Op.RepromptPlayBehavior behavior => Alexaresponse.RepromptPlayBehavior b behavior
  | Op.WithDirectives directives => Alexaresponse.WithDirectives b directives
  | Op.ShouldEndSession boolean => Alexaresponse.ShouldEndSession b boolean
  | Op.Build => do
    let _ ← Alexaresponse.Build b
    return b

/-- The calls of `ops` one after the other, each on the builder the previous
one returned. -/
def callAll (b : Ptr) : List Op → M Ptr
  | [] => pure b
  | op :: ops => do
    let b' ← op.call b
    callAll b' ops

/-- The calls that set or create the output speech, the card, the reprompt or
the directives. -/
def Op.setsOptional : Op → Bool
  | Op.WithAttributes _ => false
  | Op.ShouldEndSession _ => false
  | Op.Build => false
  | _ => true

/-- The calls `WithAttributes(..)`. -/
def Op.isWithAttributes : Op → Bool
  | Op.WithAttributes _ => true
  | _ => false

/-- The calls `ShouldEndSession(..)`. -/
def Op.isShouldEndSession : Op → Bool
  | Op.ShouldEndSession _ => true
  | _ => false

/-- The lazy setters: the calls that assign to a field of an `OutputSpeech`
through the pointer the builder (or its reprompt) already holds. -/
def Op.writesInPlace : Op → Bool
  | Op.WithTextOutputSpeech _ => true
  | Op.WithSsmlOutputSpeech _ => true
  | Op.OutputSpeechPlayBehavior _ => true
  | Op.WithTextReprompt _ => true
  | Op.WithSsmlReprompt _ => true
  | Op.RepromptPlayBehavior _ => true
  | _ => false

/-- The lazy setters of the output speech: they assign through `b.outputSpeech`. -/
def Op.writesOutputSpeech : Op → Bool
  | Op.WithTextOutputSpeech _ => true
  | Op.WithSsmlOutputSpeech _ => true
  | Op.OutputSpeechPlayBehavior _ => true
  | _ => false

/-- The lazy setters of the reprompt: they assign through
`b.reprompt.OutputSpeech`. -/
def Op.writesRepromptSpeech : Op → Bool
  | Op.WithTextReprompt _ => true
  | Op.WithSsmlReprompt _ => true
  | Op.RepromptPlayBehavior _ => true
  | _ => false

/-! ## What a holder of a response observes -/

/-- The body `*r.Response`. -/
def Heap.bodyOf (h : Heap) (r : Response) : Option Body :=
  r.Response.bind (fun a => h.body[a]?)

/-- The output speech `*r.Response.OutputSpeech`; `none` when a pointer on the
way is nil (or leads nowhere). -/
def Heap.outputSpeechOf (h : Heap) (r : Response) : Option OutputSpeech :=
  (h.bodyOf r).bind (fun body => body.OutputSpeech.bind (fun a => h.speech[a]?))

/-- The card `*r.Response.Card`. -/
def Heap.cardOf (h : Heap) (r : Response) : Option Card :=
  (h.bodyOf r).bind (fun body => body.Card.bind (fun a => h.card[a]?))

/-- The image `*r.Response.Card.Image`. -/
def Heap.cardImageOf (h : Heap) (r : Response) : Option Image :=
  (h.cardOf r).bind (fun card => card.Image.bind (fun a => h.image[a]?))

/-- The reprompt `*r.Response.Reprompt`. -/
def Heap.repromptOf (h : Heap) (r : Response) : Option Reprompt :=
  (h.bodyOf r).bind (fun body => body.Reprompt.bind (fun a => h.reprompt[a]?))

/-- The output speech of the reprompt, `*r.Response.Reprompt.OutputSpeech`. -/
def Heap.repromptSpeechOf (h : Heap) (r : Response) : Option OutputSpeech :=
  (h.repromptOf r).bind (fun reprompt => reprompt.OutputSpeech.bind (fun a => h.speech[a]?))

/-- The calls `WithReprompt(..)`. -/
def Op.isWithReprompt : Op → Bool
  | Op.WithReprompt _ => true
  | _ => false

/-- The builder's own output speech, `*b.outputSpeech`, for the builder at
address `a`; `none` when a pointer on the way is nil (or leads nowhere). -/
def Heap.builderSpeechOf (h : Heap) (a : Nat) : Option OutputSpeech :=
  (h.builder[a]?).bind (fun s => s.outputSpeech.bind (fun q => h.speech[q]?))

/-- The output speech of the builder's reprompt, `*b.reprompt.OutputSpeech`. -/
def Heap.builderRepromptSpeechOf (h : Heap) (a : Nat) : Option OutputSpeech :=
  (h.builder[a]?).bind (fun s => s.reprompt.bind (fun p =>
    (h.reprompt[p]?).bind (fun rp => rp.OutputSpeech.bind (fun q => h.speech[q]?))))

/-! ## Relations between heaps, used to state what a call leaves alone -/

/-- The second heap keeps every cell of the first that no method assigns to
after its allocation (cards, images, reprompts, bodies) and, when `speech` is
set, every output-speech cell too. -/
def Heap.kept (speech : Bool) (h1 h2 : Heap) : Prop :=
  h1.card <+: h2.card ∧ h1.image <+: h2.image ∧ h1.reprompt <+: h2.reprompt
    ∧ h1.body <+: h2.body ∧ (speech = true → h1.speech <+: h2.speech)

/-- Every normal run of the computation leaves a heap related to the initial one. -/
def preserves {α : Type} (R : Heap → Heap → Prop) (x : M α) : Prop :=
  ∀ h a h', x h = Except.ok (a, h') → R h h'

/-- The output speech the builder holds: the cell behind its pointer, or the
zero value `OutputSpeech{}` that a lazy setter starts from when there is none. -/
def Heap.speechOrZero (h : Heap) (s : Builder) : OutputSpeech :=
  (s.outputSpeech.bind (fun q => h.speech[q]?)).getD {}

/-- The states a reprompt setter can work on: `a` is the address of a builder,
its output speech, when present, is an allocated cell, and its reprompt, when
present, is an allocated cell whose own output speech is present and allocated. -/
def Heap.repromptReady (h : Heap) (a : Nat) : Prop :=
  ∃ s, h.builder[a]? = some s
    ∧ (∀ q, s.outputSpeech = some q → q < h.speech.length)
    ∧ (∀ p, s.reprompt = some p →
        ∃ rp q, h.reprompt[p]? = some rp ∧ rp.OutputSpeech = some q ∧ q < h.speech.length)

/-! ## Sample states -/

/-- The builder `NewBuilder` makes. -/
def freshBuilder : Builder := { sessionAttributes := Any.map [], shouldEndSession := true }

/-- A heap with one builder, at address 0, as `NewBuilder` makes it. -/
def freshHeap : Heap := { builder := [freshBuilder] }

/-- A builder with everything set: output speech at address 0, a card at
address 0, a reprompt at address 0, two directives. -/
def sampleBuilder : Builder :=
  { sessionAttributes := Any.map [("turn", Any.int 2)],
    outputSpeech := some 0, card := some 0, reprompt := some 0,
    directives := some [Any.string "d1", Any.string "d2"], shouldEndSession := false }

/-- A heap with the one builder `sampleBuilder` and what it points to: a spoken
text with a play behavior, a Standard card with its image, and a reprompt whose
output speech is the cell at address 1. -/
def sampleHeap : Heap :=
  { builder := [sampleBuilder],
    speech := [{ Type_ := "PlainText", Text := "hello", PlayBehavior := "ENQUEUE" },
               { Type_ := "PlainText", Text := "still there?" }],
    card := [{ Title := "T", Text := "Txt", Image := some 0 }],
    image := [{ SmallImageURL := "s.png", LargeImageURL := "l.png" }],
    reprompt := [{ OutputSpeech := some 1 }] }

/-! ## Running computations -/

theorem bind_run {α β : Type} (x : M α) (f : α → M β) (h : Heap) :
    (x >>= f) h = match x h with
      | Except.error e => Except.error e
      | Except.ok (a, h') => f a h' := rfl

theorem pure_run {α : Type} (a : α) (h : Heap) : (pure a : M α) h = Except.ok (a, h) := rfl

theorem lt_of_getElem? {α : Type} {l : List α} {a : Nat} {v : α} (hb : l[a]? = some v) :
    a < l.length := (List.getElem?_eq_some_iff.mp hb).1

theorem getElem?_append_add {α : Type} (l m : List α) (k : Nat) :
    (l ++ m)[l.length + k]? = m[k]? := by
  induction l with
  | nil => simp
  | cons x l ih =>
    have e : (x :: l).length + k = (l.length + k) + 1 := by simp; omega
    rw [e]
    simpa using ih

theorem getElem?_append_length {α : Type} (l m : List α) :
    (l ++ m)[l.length]? = m[0]? := getElem?_append_add l m 0

theorem getElem?_append_of_some {α : Type} {l : List α} {a : Nat} {v : α} (m : List α)
    (hv : l[a]? = some v) : (l ++ m)[a]? = some v := by
  induction l generalizing a with
  | nil => simp at hv
  | cons x l ih =>
    cases a with
    | zero => simpa using hv
    | succ a => simpa using ih (by simpa using hv)

theorem getElem?_set_of_ne {α : Type} (l : List α) {a b : Nat} (v : α) (hne : b ≠ a) :
    (l.set a v)[b]? = l[b]? := by
  induction l generalizing a b with
  | nil => simp
  | cons x l ih =>
    cases a with
    | zero =>
      cases b with
      | zero => exact absurd rfl hne
      | succ b => simp
    | succ a =>
      cases b with
      | zero => simp
      | succ b =>
        have hne' : b ≠ a := fun e => hne (by rw [e])
        simpa using ih hne'

/-- Build on a valid builder: the exact response and heap. -/
theorem Build_run (h : Heap) (a : Nat) (s : Builder) (hb : h.builder[a]? = some s) :
    Build (some a) h = Except.ok
      ({ Version := "1.0", SessionAttributes := s.sessionAttributes,
         Response := some h.body.length },
       { h with body := h.body ++ [{
                  OutputSpeech := s.outputSpeech, Card := s.card,
                  Reprompt := s.reprompt, Directives := s.directives,
                  ShouldEndSession := s.shouldEndSession }] }) := by
  simp [Build, bind_run, pure_run, getBuilder, readCell, newBody, hb]

/-- C1: for every builder, `Build` returns a response with version "1.0", the
session attributes of the builder, and a body whose output speech, card,
reprompt, directives and end-of-session flag are the fields of the builder; the
builder cell and every cell it points to are left as they were, and a second
`Build` returns a response with the same version and attributes whose body
equals the body of the first. -/
theorem Build_copies_builder_fields (h : Heap) (a : Nat) (s : Builder)
    (hb : h.builder[a]? = some s) :
    ∃ r h1 body, Build (some a) h = Except.ok (r, h1)
      ∧ r.Version = "1.0" ∧ r.SessionAttributes = s.sessionAttributes
      ∧ h1.bodyOf r = some body
      ∧ body.OutputSpeech = s.outputSpeech ∧ body.Card = s.card
      ∧ body.Reprompt = s.reprompt ∧ body.Directives = s.directives
      ∧ body.ShouldEndSession = s.shouldEndSession
      ∧ h1.builder = h.builder ∧ h1.speech = h.speech ∧ h1.card = h.card
      ∧ h1.image = h.image ∧ h1.reprompt = h.reprompt
      ∧ ∃ r2 h2, Build (some a) h1 = Except.ok (r2, h2)
          ∧ r2.Version = r.Version ∧ r2.SessionAttributes = r.SessionAttributes
          ∧ h2.bodyOf r2 = some body ∧ h2.bodyOf r = some body
          ∧ h2.builder = h.builder ∧ h2.speech = h.speech ∧ h2.card = h.card
          ∧ h2.image = h.image ∧ h2.reprompt = h.reprompt := by
  refine ⟨_, _, ⟨s.outputSpeech, s.card, s.reprompt, s.directives, s.shouldEndSession⟩,
    Build_run h a s hb, rfl, rfl, ?_, rfl, rfl, rfl, rfl, rfl, rfl, rfl, rfl,
    rfl, rfl, _, _, Build_run _ a s hb, rfl, rfl, ?_, ?_, rfl, rfl, rfl, rfl, rfl⟩
  · exact getElem?_append_length _ _
  · exact getElem?_append_length _ _
  · exact getElem?_append_of_some _ (getElem?_append_length _ _)

/-- C1, an instance: the builder of `sampleHeap`. -/
theorem Build_copies_builder_fields_witness :
    sampleHeap.builder[0]? = some sampleBuilder
    ∧ ∃ r h1 body, Build (some 0) sampleHeap = Except.ok (r, h1)
        ∧ r.Version = "1.0" ∧ h1.bodyOf r = some body
        ∧ body.OutputSpeech = some 0 ∧ body.ShouldEndSession = false
        ∧ h1.builder = sampleHeap.builder :=
  ⟨rfl,
    let ⟨r, h1, body, hrun, hv, _, hbody, hos, _, _, _, hflag, hbuilder, _⟩ :=
      Build_copies_builder_fields sampleHeap 0 sampleBuilder rfl
    ⟨r, h1, body, hrun, hv, hbody, hos, hflag, hbuilder⟩⟩

theorem getElem?_set_of_some {α : Type} {l : List α} {a : Nat} {v : α} (w : α)
    (hv : l[a]? = some v) : (l.set a w)[a]? = some w := by
  have hlt := lt_of_getElem? hv
  simp [hlt]

/-- The call WithAttributes on a valid builder: the exact heap. -/
theorem WithAttributes_run (h : Heap) (a : Nat) (s : Builder) (x : Any)
    (hb : h.builder[a]? = some s) :
    WithAttributes (some a) x h = Except.ok (some a,
      { h with builder := h.builder.set a ({ s with sessionAttributes := x }) }) := by
  have hlt := lt_of_getElem? hb
  simp [WithAttributes, bind_run, pure_run, setBuilder, readCell, writeCell, hb, hlt]

/-- The call ShouldEndSession on a valid builder: the exact heap. -/
theorem ShouldEndSession_run (h : Heap) (a : Nat) (s : Builder) (e : Bool)
    (hb : h.builder[a]? = some s) :
    ShouldEndSession (some a) e h = Except.ok (some a,
      { h with builder := h.builder.set a ({ s with shouldEndSession := e }) }) := by
  have hlt := lt_of_getElem? hb
  simp [ShouldEndSession, bind_run, pure_run, setBuilder, readCell, writeCell, hb, hlt]

/-- A sequence of calls none of which sets an optional sub-structure runs to
the end and leaves the four optional fields of the builder as they were; the
flag and the attributes change only by their own setters. -/
theorem callAll_plain (ops : List Op) (hplain : ∀ op ∈ ops, op.setsOptional = false) :
    ∀ (h : Heap) (a : Nat) (s : Builder), h.builder[a]? = some s →
      ∃ h1 s1, callAll (some a) ops h = Except.ok (some a, h1)
        ∧ h1.builder[a]? = some s1
        ∧ s1.outputSpeech = s.outputSpeech ∧ s1.card = s.card
        ∧ s1.reprompt = s.reprompt ∧ s1.directives = s.directives
        ∧ ((∀ op ∈ ops, op.isShouldEndSession = false) →
            s1.shouldEndSession = s.shouldEndSession)
        ∧ ((∀ op ∈ ops, op.isWithAttributes = false) →
            s1.sessionAttributes = s.sessionAttributes) := by
  induction ops with
  | nil =>
    intro h a s hb
    exact ⟨h, s, rfl, hb, rfl, rfl, rfl, rfl, fun _ => rfl, fun _ => rfl⟩
  | cons op ops ih =>
    intro h a s hb
    have hop : op.setsOptional = false := hplain op (List.mem_cons_self _ _)
    have hrest : ∀ o ∈ ops, o.setsOptional = false :=
      fun o ho => hplain o (List.mem_cons_of_mem _ ho)
    cases op with
    | WithAttributes x =>
      obtain ⟨h1, s1, hrun, hb1, e1, e2, e3, e4, e5, _⟩ :=
        ih hrest { h with builder := h.builder.set a ({ s with sessionAttributes := x }) } a _
          (getElem?_set_of_some ({ s with sessionAttributes := x }) hb)
      refine ⟨h1, s1, ?_, hb1, e1, e2, e3, e4, ?_, ?_⟩
      · simp [callAll, Op.call, bind_run, WithAttributes_run h a s x hb, hrun]
      · intro hno
        exact e5 (fun o ho => hno o (List.mem_cons_of_mem _ ho))
      · intro hno
        have := hno _ (List.mem_cons_self _ _)
        simp [Op.isWithAttributes] at this
    | ShouldEndSession e =>
      obtain ⟨h1, s1, hrun, hb1, e1, e2, e3, e4, _, e6⟩ :=
        ih hrest { h with builder := h.builder.set a ({ s with shouldEndSession := e }) } a _
          (getElem?_set_of_some ({ s with shouldEndSession := e }) hb)
      refine ⟨h1, s1, ?_, hb1, e1, e2, e3, e4, ?_, ?_⟩
      · simp [callAll, Op.call, bind_run, ShouldEndSession_run h a s e hb, hrun]
      · intro hno
        have := hno _ (List.mem_cons_self _ _)
        simp [Op.isShouldEndSession] at this
      · intro hno
        exact e6 (fun o ho => hno o (List.mem_cons_of_mem _ ho))
    | Build =>
      obtain ⟨h1, s1, hrun, hb1, e1, e2, e3, e4, e5, e6⟩ :=
        ih hrest { h with body := h.body ++ [{
                  OutputSpeech := s.outputSpeech, Card := s.card,
                  Reprompt := s.reprompt, Directives := s.directives,
                  ShouldEndSession := s.shouldEndSession }] } a s hb
      refine ⟨h1, s1, ?_, hb1, e1, e2, e3, e4, ?_, ?_⟩
      · simp [callAll, Op.call, bind_run, pure_run, Build_run h a s hb, hrun]
      · intro hno
        exact e5 (fun o ho => hno o (List.mem_cons_of_mem _ ho))
      · intro hno
        exact e6 (fun o ho => hno o (List.mem_cons_of_mem _ ho))
    | _ => simp [Op.setsOptional] at hop

/-- C2: `NewBuilder().Build()` has version "1.0", an empty non-nil map as
session attributes, and a body with output speech, card, reprompt and directives
absent and the end-of-session flag set; and after any sequence of calls none of
which sets the output speech, the card, the reprompt or the directives, `Build`
still yields a body with those four absent, with the flag set when
`ShouldEndSession` was not among the calls (and the empty map as attributes when
`WithAttributes` was not). -/
theorem NewBuilder_Build_defaults (h : Heap) (ops : List Op)
    (hplain : ∀ op ∈ ops, op.setsOptional = false) :
    (∃ r h1 body, (NewBuilder >>= fun b => Build b) h = Except.ok (r, h1)
        ∧ r.Version = "1.0" ∧ r.SessionAttributes = Any.map []
        ∧ h1.bodyOf r = some body
        ∧ body.OutputSpeech = none ∧ body.Card = none ∧ body.Reprompt = none
        ∧ body.Directives = none ∧ body.ShouldEndSession = true)
    ∧ (∃ r h1 body,
        (NewBuilder >>= fun b => callAll b ops >>= fun b => Build b) h = Except.ok (r, h1)
        ∧ r.Version = "1.0" ∧ h1.bodyOf r = some body
        ∧ body.OutputSpeech = none ∧ body.Card = none ∧ body.Reprompt = none
        ∧ body.Directives = none
        ∧ ((∀ op ∈ ops, op.isShouldEndSession = false) → body.ShouldEndSession = true)
        ∧ ((∀ op ∈ ops, op.isWithAttributes = false) → r.SessionAttributes = Any.map [])) := by
  have hb0 : ({ h with builder := h.builder ++
      [{ sessionAttributes := Any.map [], shouldEndSession := true }] } : Heap).builder[
        h.builder.length]? = some { sessionAttributes := Any.map [], shouldEndSession := true } :=
    getElem?_append_length _ _
  constructor
  · simp only [bind_run, NewBuilder, newBuilder, Build_run _ _ _ hb0]
    exact ⟨_, _, ⟨none, none, none, none, true⟩, rfl, rfl, rfl, getElem?_append_length _ _,
      rfl, rfl, rfl, rfl, rfl⟩
  · obtain ⟨h1, s1, hrun, hb1, e1, e2, e3, e4, e5, e6⟩ := callAll_plain ops hplain _ _ _ hb0
    simp only [bind_run, NewBuilder, newBuilder, hrun, Build_run _ _ _ hb1]
    exact ⟨_, _, ⟨s1.outputSpeech, s1.card, s1.reprompt, s1.directives, s1.shouldEndSession⟩,
      rfl, rfl, getElem?_append_length _ _, e1, e2, e3, e4, e5, fun hno => (e6 hno)⟩

/-- C2, an instance: attributes and the flag are set, a response is built in
between, and the optional fields are still absent. -/
theorem NewBuilder_Build_defaults_witness :
    (∀ op ∈ [Op.WithAttributes (Any.string "x"), Op.Build, Op.ShouldEndSession false],
        op.setsOptional = false)
    ∧ ∃ r h1 body,
        (NewBuilder >>= fun b =>
          callAll b [Op.WithAttributes (Any.string "x"), Op.Build, Op.ShouldEndSession false]
            >>= fun b => Build b) {} = Except.ok (r, h1)
        ∧ h1.bodyOf r = some body ∧ body.OutputSpeech = none ∧ body.Card = none
        ∧ body.Reprompt = none ∧ body.Directives = none :=
  have hplain : ∀ op ∈ [Op.WithAttributes (Any.string "x"), Op.Build, Op.ShouldEndSession false],
      op.setsOptional = false := by
    intro op hop
    simp at hop
    rcases hop with rfl | rfl | rfl <;> rfl
  ⟨hplain,
    let ⟨r, h1, body, hrun, _, hbody, e1, e2, e3, e4, _⟩ :=
      (NewBuilder_Build_defaults {} _ hplain).2
    ⟨r, h1, body, hrun, hbody, e1, e2, e3, e4⟩⟩

/-- C3: a reprompt handed to `WithReprompt` without an output speech makes each
of `WithTextReprompt`, `WithSsmlReprompt` and `RepromptPlayBehavior` stop with a
nil dereference. -/
theorem reprompt_setters_nil_dereference :
    (NewBuilder >>= fun b => WithReprompt b { OutputSpeech := none } >>= fun b =>
        WithTextReprompt b "again?") {} = Except.error Fault.nilDereference
    ∧ (NewBuilder >>= fun b => WithReprompt b { OutputSpeech := none } >>= fun b =>
        WithSsmlReprompt b "<speak>again?</speak>") {} = Except.error Fault.nilDereference
    ∧ (NewBuilder >>= fun b => WithReprompt b { OutputSpeech := none } >>= fun b =>
        RepromptPlayBehavior b "ENQUEUE") {} = Except.error Fault.nilDereference :=
  ⟨rfl, rfl, rfl⟩

/-! ## What a call keeps of the heap -/

theorem Heap.kept_refl (w : Bool) (h : Heap) : Heap.kept w h h :=
  ⟨List.prefix_refl _, List.prefix_refl _, List.prefix_refl _, List.prefix_refl _,
    fun _ => List.prefix_refl _⟩

theorem Heap.kept_trans {w : Bool} {h1 h2 h3 : Heap} (h12 : Heap.kept w h1 h2)
    (h23 : Heap.kept w h2 h3) : Heap.kept w h1 h3 :=
  ⟨h12.1.trans h23.1, h12.2.1.trans h23.2.1, h12.2.2.1.trans h23.2.2.1,
    h12.2.2.2.1.trans h23.2.2.2.1, fun hw => (h12.2.2.2.2 hw).trans (h23.2.2.2.2 hw)⟩

theorem preserves_pure {α : Type} (w : Bool) (a : α) : preserves (Heap.kept w) (pure a : M α) := by
  intro h a' h' hrun
  simp only [pure_run, Except.ok.injEq, Prod.mk.injEq] at hrun
  rw [← hrun.2]
  exact Heap.kept_refl w h

theorem preserves_bind {α β : Type} (w : Bool) (x : M α) (f : α → M β)
    (hx : preserves (Heap.kept w) x) (hf : ∀ a, preserves (Heap.kept w) (f a)) :
    preserves (Heap.kept w) (x >>= f) := by
  intro h b h' hrun
  rw [bind_run] at hrun
  cases hxr : x h with
  | error e => simp [hxr] at hrun
  | ok v =>
    obtain ⟨a, hmid⟩ := v
    simp only [hxr] at hrun
    exact Heap.kept_trans (hx h a hmid hxr) (hf a hmid b h' hrun)

theorem preserves_ite {α : Type} (w : Bool) (c : Prop) [Decidable c] (x y : M α)
    (hx : preserves (Heap.kept w) x) (hy : preserves (Heap.kept w) y) :
    preserves (Heap.kept w) (if c then x else y) := by
  split
  · exact hx
  · exact hy

theorem preserves_getBuilder (w : Bool) (b : Ptr) : preserves (Heap.kept w) (getBuilder b) := by
  intro h a h' hrun
  unfold getBuilder at hrun
  split at hrun
  · simp at hrun
  · simp only [Except.ok.injEq, Prod.mk.injEq] at hrun
    rw [← hrun.2]
    exact Heap.kept_refl w h

theorem preserves_getReprompt (w : Bool) (p : Ptr) : preserves (Heap.kept w) (getReprompt p) := by
  intro h a h' hrun
  unfold getReprompt at hrun
  split at hrun
  · simp at hrun
  · simp only [Except.ok.injEq, Prod.mk.injEq] at hrun
    rw [← hrun.2]
    exact Heap.kept_refl w h

theorem preserves_setBuilder (w : Bool) (b : Ptr) (f : Builder → Builder) :
    preserves (Heap.kept w) (setBuilder b f) := by
  intro h a h' hrun
  unfold setBuilder at hrun
  split at hrun
  · simp at hrun
  · split at hrun
    · simp at hrun
    · simp only [Except.ok.injEq, Prod.mk.injEq] at hrun
      rw [← hrun.2]
      exact Heap.kept_refl w h

theorem preserves_setSpeech (p : Ptr) (f : OutputSpeech → OutputSpeech) :
    preserves (Heap.kept false) (setSpeech p f) := by
  intro h a h' hrun
  unfold setSpeech at hrun
  split at hrun
  · simp at hrun
  · split at hrun
    · simp at hrun
    · simp only [Except.ok.injEq, Prod.mk.injEq] at hrun
      rw [← hrun.2]
      exact ⟨List.prefix_refl _, List.prefix_refl _, List.prefix_refl _, List.prefix_refl _,
        fun hw => by simp at hw⟩

theorem preserves_newSpeech (w : Bool) (v : OutputSpeech) :
    preserves (Heap.kept w) (newSpeech v) := by
  intro h a h' hrun
  simp only [newSpeech, Except.ok.injEq, Prod.mk.injEq] at hrun
  rw [← hrun.2]
  exact ⟨List.prefix_refl _, List.prefix_refl _, List.prefix_refl _, List.prefix_refl _,
    fun _ => List.prefix_append _ _⟩

theorem preserves_newCard (w : Bool) (v : Card) : preserves (Heap.kept w) (newCard v) := by
  intro h a h' hrun
  simp only [newCard, Except.ok.injEq, Prod.mk.injEq] at hrun
  rw [← hrun.2]
  exact ⟨List.prefix_append _ _, List.prefix_refl _, List.prefix_refl _, List.prefix_refl _,
    fun _ => List.prefix_refl _⟩

theorem preserves_newImage (w : Bool) (v : Image) : preserves (Heap.kept w) (newImage v) := by
  intro h a h' hrun
  simp only [newImage, Except.ok.injEq, Prod.mk.injEq] at hrun
  rw [← hrun.2]
  exact ⟨List.prefix_refl _, List.prefix_append _ _, List.prefix_refl _, List.prefix_refl _,
    fun _ => List.prefix_refl _⟩

theorem preserves_newReprompt (w : Bool) (v : Reprompt) :
    preserves (Heap.kept w) (newReprompt v) := by
  intro h a h' hrun
  simp only [newReprompt, Except.ok.injEq, Prod.mk.injEq] at hrun
  rw [← hrun.2]
  exact ⟨List.prefix_refl _, List.prefix_refl _, List.prefix_append _ _, List.prefix_refl _,
    fun _ => List.prefix_refl _⟩

theorem preserves_newBody (w : Bool) (v : Body) : preserves (Heap.kept w) (newBody v) := by
  intro h a h' hrun
  simp only [newBody, Except.ok.injEq, Prod.mk.injEq] at hrun
  rw [← hrun.2]
  exact ⟨List.prefix_refl _, List.prefix_refl _, List.prefix_refl _, List.prefix_append _ _,
    fun _ => List.prefix_refl _⟩

/-- Every call keeps the cards, images, reprompts and bodies allocated before
it; every call but a lazy setter keeps the output speeches too. -/
theorem Op.call_preserves (op : Op) (b : Ptr) :
    preserves (Heap.kept (!op.writesInPlace)) (op.call b) := by
  cases op <;>
    simp only [Op.call, Op.writesInPlace, Bool.not_true, Bool.not_false,
      Alexaresponse.WithAttributes, Alexaresponse.WithOutputSpeech,
      Alexaresponse.WithTextOutputSpeech, Alexaresponse.WithSsmlOutputSpeech,
      Alexaresponse.OutputSpeechPlayBehavior, Alexaresponse.WithCard,
      Alexaresponse.WithSimpleCard, Alexaresponse.WithStandardCard,
      Alexaresponse.WithReprompt, Alexaresponse.WithTextReprompt,
      Alexaresponse.WithSsmlReprompt, Alexaresponse.RepromptPlayBehavior,
      Alexaresponse.WithDirectives, Alexaresponse.ShouldEndSession, Alexaresponse.Build] <;>
    repeat (first
      | apply preserves_bind
      | apply preserves_pure
      | apply preserves_ite
      | apply preserves_getBuilder
      | apply preserves_getReprompt
      | apply preserves_setBuilder
      | apply preserves_setSpeech
      | apply preserves_newSpeech
      | apply preserves_newCard
      | apply preserves_newImage
      | apply preserves_newReprompt
      | apply preserves_newBody
      | intro _)

theorem getElem?_of_extension {α : Type} {l1 l2 : List α} {a : Nat} {v : α} (hp : l1 <+: l2)
    (hv : l1[a]? = some v) : l2[a]? = some v := by
  obtain ⟨t, rfl⟩ := hp
  exact getElem?_append_of_some t hv

/-! ### The lazy setters, run on a valid builder -/

theorem WithTextOutputSpeech_absent (h : Heap) (a : Nat) (s : Builder) (text : String)
    (hb : h.builder[a]? = some s) (hn : s.outputSpeech = none) :
    WithTextOutputSpeech (some a) text h = Except.ok (some a,
      { h with builder := h.builder.set a ({ s with outputSpeech := some h.speech.length }),
               speech := h.speech ++ [{ Type_ := "PlainText", Text := text }] }) := by
  have hlt := lt_of_getElem? hb
  simp [WithTextOutputSpeech, bind_run, pure_run, getBuilder, setBuilder, setSpeech, readCell,
    writeCell, newSpeech, hb, hn, hlt]

theorem WithTextOutputSpeech_present (h : Heap) (a q : Nat) (s : Builder) (o : OutputSpeech)
    (text : String)
    (hb : h.builder[a]? = some s) (hp : s.outputSpeech = some q) (hq : h.speech[q]? = some o) :
    WithTextOutputSpeech (some a) text h = Except.ok (some a,
      { h with speech := h.speech.set q ({ o with Type_ := "PlainText", Text := text }) }) := by
  have hlt := lt_of_getElem? hb
  have hlq := lt_of_getElem? hq
  simp [WithTextOutputSpeech, bind_run, pure_run, getBuilder, setBuilder, setSpeech, readCell,
    writeCell, newSpeech, hb, hp, hq, hlt, hlq]

theorem WithSsmlOutputSpeech_absent (h : Heap) (a : Nat) (s : Builder) (ssml : String)
    (hb : h.builder[a]? = some s) (hn : s.outputSpeech = none) :
    WithSsmlOutputSpeech (some a) ssml h = Except.ok (some a,
      { h with builder := h.builder.set a ({ s with outputSpeech := some h.speech.length }),
               speech := h.speech ++ [{ Type_ := "ssml", Ssml := ssml }] }) := by
  have hlt := lt_of_getElem? hb
  simp [WithSsmlOutputSpeech, bind_run, pure_run, getBuilder, setBuilder, setSpeech, readCell,
    writeCell, newSpeech, hb, hn, hlt]

theorem WithSsmlOutputSpeech_present (h : Heap) (a q : Nat) (s : Builder) (o : OutputSpeech)
    (ssml : String)
    (hb : h.builder[a]? = some s) (hp : s.outputSpeech = some q) (hq : h.speech[q]? = some o) :
    WithSsmlOutputSpeech (some a) ssml h = Except.ok (some a,
      { h with speech := h.speech.set q ({ o with Type_ := "ssml", Ssml := ssml }) }) := by
  have hlt := lt_of_getElem? hb
  have hlq := lt_of_getElem? hq
  simp [WithSsmlOutputSpeech, bind_run, pure_run, getBuilder, setBuilder, setSpeech, readCell,
    writeCell, newSpeech, hb, hp, hq, hlt, hlq]

theorem OutputSpeechPlayBehavior_absent (h : Heap) (a : Nat) (s : Builder) (behavior : String)
    (hb : h.builder[a]? = some s) (hn : s.outputSpeech = none) :
    OutputSpeechPlayBehavior (some a) behavior h = Except.ok (some a,
      { h with builder := h.builder.set a ({ s with outputSpeech := some h.speech.length }),
               speech := h.speech ++ [{ PlayBehavior := behavior }] }) := by
  have hlt := lt_of_getElem? hb
  simp [OutputSpeechPlayBehavior, bind_run, pure_run, getBuilder, setBuilder, setSpeech,
    readCell, writeCell, newSpeech, hb, hn, hlt]

theorem OutputSpeechPlayBehavior_present (h : Heap) (a q : Nat) (s : Builder)
    (o : OutputSpeech) (behavior : String)
    (hb : h.builder[a]? = some s) (hp : s.outputSpeech = some q) (hq : h.speech[q]? = some o) :
    OutputSpeechPlayBehavior (some a) behavior h = Except.ok (some a,
      { h with speech := h.speech.set q ({ o with PlayBehavior := behavior }) }) := by
  have hlt := lt_of_getElem? hb
  have hlq := lt_of_getElem? hq
  simp [OutputSpeechPlayBehavior, bind_run, pure_run, getBuilder, setBuilder, setSpeech,
    readCell, writeCell, newSpeech, hb, hp, hq, hlt, hlq]

theorem WithTextReprompt_present (h : Heap) (a p q : Nat) (s : Builder) (rp : Reprompt)
    (o : OutputSpeech) (text : String)
    (hb : h.builder[a]? = some s) (hp : s.reprompt = some p) (hr : h.reprompt[p]? = some rp)
    (hpq : rp.OutputSpeech = some q) (hq : h.speech[q]? = some o) :
    WithTextReprompt (some a) text h = Except.ok (some a,
      { h with speech := h.speech.set q ({ o with Type_ := "PlainText", Text := text }) }) := by
  have hlt := lt_of_getElem? hb
  have hlq := lt_of_getElem? hq
  simp [WithTextReprompt, bind_run, pure_run, getBuilder, getReprompt, setBuilder, setSpeech,
    readCell, writeCell, newSpeech, newReprompt, hb, hp, hr, hpq, hq, hlt, hlq]

theorem WithSsmlReprompt_present (h : Heap) (a p q : Nat) (s : Builder) (rp : Reprompt)
    (o : OutputSpeech) (ssml : String)
    (hb : h.builder[a]? = some s) (hp : s.reprompt = some p) (hr : h.reprompt[p]? = some rp)
    (hpq : rp.OutputSpeech = some q) (hq : h.speech[q]? = some o) :
    WithSsmlReprompt (some a) ssml h = Except.ok (some a,
      { h with speech := h.speech.set q ({ o with Type_ := "ssml", Ssml := ssml }) }) := by
  have hlt := lt_of_getElem? hb
  have hlq := lt_of_getElem? hq
  simp [WithSsmlReprompt, bind_run, pure_run, getBuilder, getReprompt, setBuilder, setSpeech,
    readCell, writeCell, newSpeech, newReprompt, hb, hp, hr, hpq, hq, hlt, hlq]

theorem RepromptPlayBehavior_present (h : Heap) (a p q : Nat) (s : Builder) (rp : Reprompt)
    (o : OutputSpeech) (behavior : String)
    (hb : h.builder[a]? = some s) (hp : s.reprompt = some p) (hr : h.reprompt[p]? = some rp)
    (hpq : rp.OutputSpeech = some q) (hq : h.speech[q]? = some o) :
    RepromptPlayBehavior (some a) behavior h = Except.ok (some a,
      { h with speech := h.speech.set q ({ o with PlayBehavior := behavior }) }) := by
  have hlt := lt_of_getElem? hb
  have hlq := lt_of_getElem? hq
  simp [RepromptPlayBehavior, bind_run, pure_run, getBuilder, getReprompt, setBuilder,
    setSpeech, readCell, writeCell, newSpeech, newReprompt, hb, hp, hr, hpq, hq, hlt, hlq]

/-- A successful `Build` was run on a valid builder. -/
theorem Build_ok_inv (h : Heap) (a : Nat) (r : Response) (h1 : Heap)
    (hbuild : Build (some a) h = Except.ok (r, h1)) :
    ∃ s, h.builder[a]? = some s
      ∧ r = { Version := "1.0", SessionAttributes := s.sessionAttributes,
              Response := some h.body.length }
      ∧ h1 = { h with body := h.body ++ [{
                  OutputSpeech := s.outputSpeech, Card := s.card,
                  Reprompt := s.reprompt, Directives := s.directives,
                  ShouldEndSession := s.shouldEndSession }] } := by
  cases hs : h.builder[a]? with
  | none =>
    simp [Build, bind_run, getBuilder, readCell, hs] at hbuild
  | some s =>
    rw [Build_run h a s hs] at hbuild
    simp only [Except.ok.injEq, Prod.mk.injEq] at hbuild
    exact ⟨s, rfl, hbuild.1.symm, hbuild.2.symm⟩

/-- C4, the counterexample: a response is built, then the builder's text is set
again; the text read through the response has changed with it. -/
theorem Build_response_follows_lazy_setter :
    ∃ r h1 h2,
      (NewBuilder >>= fun b => WithTextOutputSpeech b "first" >>= fun b => Build b) {}
          = Except.ok (r, h1)
      ∧ WithTextOutputSpeech (some 0) "second" h1 = Except.ok (some 0, h2)
      ∧ h1.outputSpeechOf r = some { Type_ := "PlainText", Text := "first" }
      ∧ h2.outputSpeechOf r = some { Type_ := "PlainText", Text := "second" }
      ∧ h2.outputSpeechOf r ≠ h1.outputSpeechOf r :=
  ⟨_, _, _, rfl, rfl, rfl, rfl, by decide⟩

/-! ### Specifications used to chain calls -/

theorem NewBuilder_valid (h : Heap) :
    ∃ h1 a, NewBuilder h = Except.ok (some a, h1)
      ∧ h1.builder[a]? = some { sessionAttributes := Any.map [], shouldEndSession := true } :=
  ⟨_, _, rfl, getElem?_append_length _ _⟩

/-- Build on a valid builder, as seen through the response. -/
theorem Build_observed (h : Heap) (a : Nat) (s : Builder) (hb : h.builder[a]? = some s) :
    ∃ r h1, Build (some a) h = Except.ok (r, h1)
      ∧ r.Version = "1.0" ∧ r.SessionAttributes = s.sessionAttributes
      ∧ h1.bodyOf r = some ⟨s.outputSpeech, s.card, s.reprompt, s.directives,
          s.shouldEndSession⟩
      ∧ h1.builder = h.builder ∧ h1.speech = h.speech ∧ h1.card = h.card
      ∧ h1.image = h.image ∧ h1.reprompt = h.reprompt :=
  ⟨_, _, Build_run h a s hb, rfl, rfl, getElem?_append_length _ _, rfl, rfl, rfl, rfl, rfl⟩

theorem outputSpeechOf_of_body {h : Heap} {r : Response} {body : Body} {q : Nat}
    {o : OutputSpeech} (hbody : h.bodyOf r = some body) (hq : body.OutputSpeech = some q)
    (ho : h.speech[q]? = some o) : h.outputSpeechOf r = some o := by
  simp only [Heap.outputSpeechOf, hbody, Option.some_bind, hq]
  exact ho

theorem cardOf_of_body {h : Heap} {r : Response} {body : Body} {q : Nat}
    {c : Card} (hbody : h.bodyOf r = some body) (hq : body.Card = some q)
    (hc : h.card[q]? = some c) : h.cardOf r = some c := by
  simp only [Heap.cardOf, hbody, Option.some_bind, hq]
  exact hc

theorem cardImageOf_of_card {h : Heap} {r : Response} {c : Card} {q : Nat}
    {i : Image} (hcard : h.cardOf r = some c) (hq : c.Image = some q)
    (hi : h.image[q]? = some i) : h.cardImageOf r = some i := by
  simp only [Heap.cardImageOf, hcard, Option.some_bind, hq]
  exact hi

/-- The call `WithTextOutputSpeech` on a valid builder: the builder ends up pointing to a
cell that holds what it held before (or the zero value) with the type and the
text overwritten. -/
theorem WithTextOutputSpeech_valid (h : Heap) (a : Nat) (s : Builder) (text : String)
    (hb : h.builder[a]? = some s)
    (hvalid : ∀ q, s.outputSpeech = some q → q < h.speech.length) :
    ∃ h1 q, WithTextOutputSpeech (some a) text h = Except.ok (some a, h1)
      ∧ h1.builder[a]? = some { s with outputSpeech := some q }
      ∧ h1.speech[q]? =
          some { h.speechOrZero s with Type_ := "PlainText", Text := text } := by
  cases hn : s.outputSpeech with
  | none =>
    refine ⟨_, _, WithTextOutputSpeech_absent h a s text hb hn, getElem?_set_of_some _ hb, ?_⟩
    simp [Heap.speechOrZero, hn, getElem?_append_length]
  | some q =>
    have hlq := hvalid q hn
    have hq : h.speech[q]? = some (h.speechOrZero s) := by
      simp [Heap.speechOrZero, hn, hlq]
    refine ⟨_, q, WithTextOutputSpeech_present h a q s _ text hb hn hq, ?_,
      getElem?_set_of_some _ hq⟩
    rw [← hn]
    exact hb

/-- The call `WithSsmlOutputSpeech` on a valid builder, in the same terms. -/
theorem WithSsmlOutputSpeech_valid (h : Heap) (a : Nat) (s : Builder) (ssml : String)
    (hb : h.builder[a]? = some s)
    (hvalid : ∀ q, s.outputSpeech = some q → q < h.speech.length) :
    ∃ h1 q, WithSsmlOutputSpeech (some a) ssml h = Except.ok (some a, h1)
      ∧ h1.builder[a]? = some { s with outputSpeech := some q }
      ∧ h1.speech[q]? =
          some { h.speechOrZero s with Type_ := "ssml", Ssml := ssml } := by
  cases hn : s.outputSpeech with
  | none =>
    refine ⟨_, _, WithSsmlOutputSpeech_absent h a s ssml hb hn, getElem?_set_of_some _ hb, ?_⟩
    simp [Heap.speechOrZero, hn, getElem?_append_length]
  | some q =>
    have hlq := hvalid q hn
    have hq : h.speech[q]? = some (h.speechOrZero s) := by
      simp [Heap.speechOrZero, hn, hlq]
    refine ⟨_, q, WithSsmlOutputSpeech_present h a q s _ ssml hb hn hq, ?_,
      getElem?_set_of_some _ hq⟩
    rw [← hn]
    exact hb

/-- C5: last write wins between text and ssml. On every builder,
`WithTextOutputSpeech(x)` then `WithSsmlOutputSpeech(y)` then `Build` gives an
output speech of type "ssml" with ssml `y` whose text field still holds `x`; in
the other order the type is "PlainText", the text `x`, and the ssml field still
holds `y`. -/
theorem text_ssml_last_write_wins (h : Heap) (a : Nat) (s : Builder) (x y : String)
    (hb : h.builder[a]? = some s)
    (hvalid : ∀ q, s.outputSpeech = some q → q < h.speech.length) :
    (∃ r h1 o,
        (WithTextOutputSpeech (some a) x >>= fun b => WithSsmlOutputSpeech b y >>= fun b =>
          Build b) h = Except.ok (r, h1)
        ∧ h1.outputSpeechOf r = some o
        ∧ o.Type_ = "ssml" ∧ o.Ssml = y ∧ o.Text = x)
    ∧ (∃ r h1 o,
        (WithSsmlOutputSpeech (some a) y >>= fun b => WithTextOutputSpeech b x >>= fun b =>
          Build b) h = Except.ok (r, h1)
        ∧ h1.outputSpeechOf r = some o
        ∧ o.Type_ = "PlainText" ∧ o.Text = x ∧ o.Ssml = y) := by
  constructor
  · obtain ⟨h1, q, hrun1, hb1, hq1⟩ := WithTextOutputSpeech_valid h a s x hb hvalid
    obtain ⟨h2, q2, hrun2, hb2, hq2⟩ := WithSsmlOutputSpeech_valid h1 a _ y hb1
      (fun q' hq' => by
        simp only [Option.some.injEq] at hq'
        subst hq'
        exact lt_of_getElem? hq1)
    obtain ⟨r, h3, hbuild, _, _, hbody, _, hsp, _⟩ := Build_observed h2 a _ hb2
    refine ⟨r, h3, _, ?_, outputSpeechOf_of_body hbody rfl (by rw [hsp]; exact hq2), ?_⟩
    · simp only [bind_run, hrun1, hrun2]
      exact hbuild
    · simp [Heap.speechOrZero, hq1]
  · obtain ⟨h1, q, hrun1, hb1, hq1⟩ := WithSsmlOutputSpeech_valid h a s y hb hvalid
    obtain ⟨h2, q2, hrun2, hb2, hq2⟩ := WithTextOutputSpeech_valid h1 a _ x hb1
      (fun q' hq' => by
        simp only [Option.some.injEq] at hq'
        subst hq'
        exact lt_of_getElem? hq1)
    obtain ⟨r, h3, hbuild, _, _, hbody, _, hsp, _⟩ := Build_observed h2 a _ hb2
    refine ⟨r, h3, _, ?_, outputSpeechOf_of_body hbody rfl (by rw [hsp]; exact hq2), ?_⟩
    · simp only [bind_run, hrun1, hrun2]
      exact hbuild
    · simp [Heap.speechOrZero, hq1]

/-- C5, an instance: the builder of `sampleHeap`. -/
theorem text_ssml_last_write_wins_witness :
    sampleHeap.builder[0]? = some sampleBuilder
    ∧ (∀ q, sampleBuilder.outputSpeech = some q → q < sampleHeap.speech.length)
    ∧ ∃ r h1 o,
        (WithTextOutputSpeech (some 0) "a" >>= fun b => WithSsmlOutputSpeech b "s" >>= fun b =>
          Build b) sampleHeap = Except.ok (r, h1)
        ∧ h1.outputSpeechOf r = some o
        ∧ o.Type_ = "ssml" ∧ o.Ssml = "s" ∧ o.Text = "a" :=
  have hvalid : ∀ q, sampleBuilder.outputSpeech = some q → q < sampleHeap.speech.length := by
    intro q hq
    simp only [sampleBuilder, Option.some.injEq] at hq
    subst hq
    decide
  ⟨rfl, hvalid, (text_ssml_last_write_wins sampleHeap 0 sampleBuilder "a" "s" rfl hvalid).1⟩

theorem speechOrZero_none (h : Heap) (s : Builder) (hn : s.outputSpeech = none) :
    h.speechOrZero s = {} := by
  simp [Heap.speechOrZero, hn]

/-- The call `OutputSpeechPlayBehavior` on a valid builder, in the terms of
`WithTextOutputSpeech_valid`. -/
theorem OutputSpeechPlayBehavior_valid (h : Heap) (a : Nat) (s : Builder) (behavior : String)
    (hb : h.builder[a]? = some s)
    (hvalid : ∀ q, s.outputSpeech = some q → q < h.speech.length) :
    ∃ h1 q, OutputSpeechPlayBehavior (some a) behavior h = Except.ok (some a, h1)
      ∧ h1.builder[a]? = some { s with outputSpeech := some q }
      ∧ h1.speech[q]? = some { h.speechOrZero s with PlayBehavior := behavior } := by
  cases hn : s.outputSpeech with
  | none =>
    refine ⟨_, _, OutputSpeechPlayBehavior_absent h a s behavior hb hn,
      getElem?_set_of_some _ hb, ?_⟩
    simp [Heap.speechOrZero, hn, getElem?_append_length]
  | some q =>
    have hlq := hvalid q hn
    have hq : h.speech[q]? = some (h.speechOrZero s) := by
      simp [Heap.speechOrZero, hn, hlq]
    refine ⟨_, q, OutputSpeechPlayBehavior_present h a q s _ behavior hb hn hq, ?_,
      getElem?_set_of_some _ hq⟩
    rw [← hn]
    exact hb

/-- The call `WithSimpleCard` on a valid builder: the builder points to a fresh card. -/
theorem WithSimpleCard_valid (h : Heap) (a : Nat) (s : Builder) (title content : String)
    (hb : h.builder[a]? = some s) :
    ∃ h1 q, WithSimpleCard (some a) title content h = Except.ok (some a, h1)
      ∧ h1.builder[a]? = some { s with card := some q }
      ∧ h1.card[q]? = some { Type_ := "Simple", Title := title, Content := content } := by
  have hlt := lt_of_getElem? hb
  refine ⟨{ h with builder := h.builder.set a ({ s with card := some h.card.length }),
                   card := h.card ++ [{ Type_ := "Simple", Title := title, Content := content }] },
    h.card.length, ?_, getElem?_set_of_some _ hb, getElem?_append_length _ _⟩
  simp [WithSimpleCard, bind_run, pure_run, newCard, setBuilder, readCell, writeCell, hb, hlt]

/-- The call `WithStandardCard` on a valid builder: the builder points to a fresh card,
which points to a fresh copy of the image. -/
theorem WithStandardCard_valid (h : Heap) (a : Nat) (s : Builder) (title text : String)
    (image : Image) (hb : h.builder[a]? = some s) :
    ∃ h1 q i, WithStandardCard (some a) title text image h = Except.ok (some a, h1)
      ∧ h1.builder[a]? = some { s with card := some q }
      ∧ h1.card[q]? = some { Title := title, Text := text, Image := some i }
      ∧ h1.image[i]? = some image := by
  have hlt := lt_of_getElem? hb
  refine ⟨{ h with builder := h.builder.set a ({ s with card := some h.card.length }),
                   card := h.card ++ [{ Title := title, Text := text,
                                        Image := some h.image.length }],
                   image := h.image ++ [image] },
    h.card.length, h.image.length, ?_, getElem?_set_of_some _ hb, getElem?_append_length _ _,
    getElem?_append_length _ _⟩
  simp [WithStandardCard, bind_run, pure_run, newCard, newImage, setBuilder, readCell,
    writeCell, hb, hlt]

/-- C6: on a builder without output speech, in particular on a new one,
`WithTextOutputSpeech(t)` then `Build` gives a present output speech of type
"PlainText" with text `t`, empty ssml and empty play behavior. -/
theorem WithTextOutputSpeech_Build_plain_text (h : Heap) (t : String) :
    (∃ r h1, (NewBuilder >>= fun b => WithTextOutputSpeech b t >>= fun b => Build b) h
          = Except.ok (r, h1)
        ∧ h1.outputSpeechOf r
          = some { Type_ := "PlainText", Text := t, Ssml := "", PlayBehavior := "" })
    ∧ (∀ a s, h.builder[a]? = some s → s.outputSpeech = none →
        ∃ r h1, (WithTextOutputSpeech (some a) t >>= fun b => Build b) h = Except.ok (r, h1)
          ∧ h1.outputSpeechOf r
            = some { Type_ := "PlainText", Text := t, Ssml := "", PlayBehavior := "" }) := by
  have general : ∀ (h : Heap) (a : Nat) (s : Builder), h.builder[a]? = some s →
      s.outputSpeech = none →
      ∃ r h1, (WithTextOutputSpeech (some a) t >>= fun b => Build b) h = Except.ok (r, h1)
        ∧ h1.outputSpeechOf r
          = some { Type_ := "PlainText", Text := t, Ssml := "", PlayBehavior := "" } := by
    intro h a s hb hn
    obtain ⟨h1, q, hrun1, hb1, hq1⟩ := WithTextOutputSpeech_valid h a s t hb
      (fun q' hq' => by simp [hn] at hq')
    obtain ⟨r, h2, hbuild, _, _, hbody, _, hsp, _⟩ := Build_observed h1 a _ hb1
    refine ⟨r, h2, ?_, ?_⟩
    · simp only [bind_run, hrun1]
      exact hbuild
    · rw [speechOrZero_none h s hn] at hq1
      exact outputSpeechOf_of_body hbody rfl (by rw [hsp]; exact hq1)
  constructor
  · obtain ⟨h0, a, hrun0, hb0⟩ := NewBuilder_valid h
    obtain ⟨r, h1, hrun, hobs⟩ := general h0 a _ hb0 rfl
    refine ⟨r, h1, ?_, hobs⟩
    rw [bind_run] at hrun ⊢
    simp only [hrun0]
    exact hrun
  · intro a s hb hn
    exact general h a s hb hn

/-- C6, an instance: the new builder at address 0 of `freshHeap`. -/
theorem WithTextOutputSpeech_Build_plain_text_witness :
    freshHeap.builder[0]? = some freshBuilder ∧ freshBuilder.outputSpeech = none
    ∧ ∃ r h1, (WithTextOutputSpeech (some 0) "hi" >>= fun b => Build b) freshHeap
          = Except.ok (r, h1)
        ∧ h1.outputSpeechOf r
          = some { Type_ := "PlainText", Text := "hi", Ssml := "", PlayBehavior := "" } :=
  ⟨rfl, rfl, (WithTextOutputSpeech_Build_plain_text freshHeap "hi").2 0 freshBuilder rfl rfl⟩

/-- C7: `OutputSpeechPlayBehavior(p)` on a new builder gives a present output
speech in which only the play behavior is set, and it is still `p` after a later
`WithTextOutputSpeech`; on every builder whose output speech is present with
play behavior `p`, `WithTextOutputSpeech(t)` and `WithSsmlOutputSpeech(t)` keep
the builder's pointer and leave the play behavior of the cell at `p`. -/
theorem play_behavior_survives_text_and_ssml (h : Heap) (p t : String) :
    (∃ r h1, (NewBuilder >>= fun b => OutputSpeechPlayBehavior b p >>= fun b => Build b) h
          = Except.ok (r, h1)
        ∧ h1.outputSpeechOf r
          = some { Type_ := "", Text := "", Ssml := "", PlayBehavior := p })
    ∧ (∃ r h1, (NewBuilder >>= fun b => OutputSpeechPlayBehavior b p >>= fun b =>
          WithTextOutputSpeech b t >>= fun b => Build b) h = Except.ok (r, h1)
        ∧ h1.outputSpeechOf r
          = some { Type_ := "PlainText", Text := t, Ssml := "", PlayBehavior := p })
    ∧ (∀ a s q o, h.builder[a]? = some s → s.outputSpeech = some q →
        h.speech[q]? = some o → o.PlayBehavior = p →
        (∃ h1 o1, WithTextOutputSpeech (some a) t h = Except.ok (some a, h1)
          ∧ h1.builder[a]? = some s ∧ h1.speech[q]? = some o1
          ∧ o1.PlayBehavior = p ∧ o1.Type_ = "PlainText" ∧ o1.Text = t)
        ∧ (∃ h1 o1, WithSsmlOutputSpeech (some a) t h = Except.ok (some a, h1)
          ∧ h1.builder[a]? = some s ∧ h1.speech[q]? = some o1
          ∧ o1.PlayBehavior = p ∧ o1.Type_ = "ssml" ∧ o1.Ssml = t)) := by
  obtain ⟨h0, a, hrun0, hb0⟩ := NewBuilder_valid h
  obtain ⟨h1, q, hrun1, hb1, hq1⟩ := OutputSpeechPlayBehavior_valid h0 a _ p hb0
    (fun q' hq' => by simp at hq')
  rw [speechOrZero_none h0 _ rfl] at hq1
  refine ⟨?_, ?_, ?_⟩
  · obtain ⟨r, h2, hbuild, _, _, hbody, _, hsp, _⟩ := Build_observed h1 a _ hb1
    refine ⟨r, h2, ?_, outputSpeechOf_of_body hbody rfl (by rw [hsp]; exact hq1)⟩
    simp only [bind_run, hrun0, hrun1]
    exact hbuild
  · have hrun2 := WithTextOutputSpeech_present h1 a q _ _ t hb1 rfl hq1
    obtain ⟨r, h3, hbuild, _, _, hbody, _, hsp, _⟩ := Build_observed _ a _
      (show (Heap.mk h1.builder (h1.speech.set q _) h1.card h1.image h1.reprompt
        h1.body).builder[a]? = some _ from hb1)
    refine ⟨r, h3, ?_, outputSpeechOf_of_body hbody rfl
      (by rw [hsp]; exact getElem?_set_of_some _ hq1)⟩
    simp only [bind_run, hrun0, hrun1, hrun2]
    exact hbuild
  · intro a s q o hb hp hq hpb
    constructor
    · exact ⟨_, _, WithTextOutputSpeech_present h a q s o t hb hp hq, hb,
        getElem?_set_of_some _ hq, hpb, rfl, rfl⟩
    · exact ⟨_, _, WithSsmlOutputSpeech_present h a q s o t hb hp hq, hb,
        getElem?_set_of_some _ hq, hpb, rfl, rfl⟩

/-- C7, an instance: the builder of `sampleHeap`, whose output speech has play
behavior "ENQUEUE". -/
theorem play_behavior_survives_text_and_ssml_witness :
    sampleHeap.builder[0]? = some sampleBuilder ∧ sampleBuilder.outputSpeech = some 0
    ∧ ∃ h1 o1, WithTextOutputSpeech (some 0) "bye" sampleHeap = Except.ok (some 0, h1)
        ∧ h1.builder[0]? = some sampleBuilder ∧ h1.speech[0]? = some o1
        ∧ o1.PlayBehavior = "ENQUEUE" ∧ o1.Type_ = "PlainText" ∧ o1.Text = "bye" :=
  ⟨rfl, rfl, ((play_behavior_survives_text_and_ssml sampleHeap "ENQUEUE" "bye").2.2
    0 sampleBuilder 0 _ rfl rfl rfl rfl).1⟩

/-- C8: on a builder whose output speech is present, `OutputSpeechPlayBehavior(p)`
returns the same builder, sets the play behavior of the output speech to `p` and
leaves its type, text and ssml as they were; the builder cell (hence its card,
reprompt, directives, session attributes and flag), every card, image, reprompt
and body cell, and every other output-speech cell are unchanged. The reprompt is
unchanged as an object: were its `OutputSpeech` pointer the very cell written
to, that pointer would still be the same and lead to the updated cell. -/
theorem OutputSpeechPlayBehavior_sets_only_play_behavior (h : Heap) (a q : Nat)
    (s : Builder) (o : OutputSpeech) (p : String)
    (hb : h.builder[a]? = some s) (hp : s.outputSpeech = some q)
    (hq : h.speech[q]? = some o) :
    ∃ h1 s1 o1, OutputSpeechPlayBehavior (some a) p h = Except.ok (some a, h1)
      ∧ h1.builder[a]? = some s1 ∧ s1.outputSpeech = some q ∧ h1.speech[q]? = some o1
      ∧ o1.PlayBehavior = p
      ∧ o1.Type_ = o.Type_ ∧ o1.Text = o.Text ∧ o1.Ssml = o.Ssml
      ∧ s1.card = s.card ∧ s1.reprompt = s.reprompt ∧ s1.directives = s.directives
      ∧ s1.sessionAttributes = s.sessionAttributes
      ∧ s1.shouldEndSession = s.shouldEndSession
      ∧ h1.builder = h.builder ∧ h1.card = h.card ∧ h1.image = h.image
      ∧ h1.reprompt = h.reprompt ∧ h1.body = h.body
      ∧ (∀ q', q' ≠ q → h1.speech[q']? = h.speech[q']?) :=
  ⟨_, s, _, OutputSpeechPlayBehavior_present h a q s o p hb hp hq, hb, hp,
    getElem?_set_of_some _ hq, rfl, rfl, rfl, rfl, rfl, rfl, rfl, rfl, rfl, rfl, rfl, rfl,
    rfl, rfl, fun _ hne => getElem?_set_of_ne _ _ hne⟩

/-- C8, an instance: the builder of `sampleHeap`. -/
theorem OutputSpeechPlayBehavior_sets_only_play_behavior_witness :
    sampleHeap.builder[0]? = some sampleBuilder ∧ sampleBuilder.outputSpeech = some 0
    ∧ ∃ h1 o1, OutputSpeechPlayBehavior (some 0) "REPLACE_ALL" sampleHeap
          = Except.ok (some 0, h1)
        ∧ h1.speech[0]? = some o1 ∧ o1.PlayBehavior = "REPLACE_ALL"
        ∧ o1.Type_ = "PlainText" ∧ o1.Text = "hello" ∧ o1.Ssml = "" :=
  ⟨rfl, rfl,
    let ⟨h1, _, o1, hrun, _, _, ho1, e1, e2, e3, e4, _⟩ :=
      OutputSpeechPlayBehavior_sets_only_play_behavior sampleHeap 0 0 sampleBuilder
        { Type_ := "PlainText", Text := "hello", PlayBehavior := "ENQUEUE" } "REPLACE_ALL"
        rfl rfl rfl
    ⟨h1, o1, hrun, ho1, e1, e2, e3, e4⟩⟩

/-- C9: on every builder, whatever card it held, `WithSimpleCard(T, C)` then
`Build` gives a present card of type "Simple" with title `T`, content `C`, empty
text and no image. -/
theorem WithSimpleCard_Build_simple_card (h : Heap) (a : Nat) (s : Builder)
    (title content : String) (hb : h.builder[a]? = some s) :
    ∃ r h1 c, (WithSimpleCard (some a) title content >>= fun b => Build b) h
        = Except.ok (r, h1)
      ∧ h1.cardOf r = some c
      ∧ c.Type_ = "Simple" ∧ c.Title = title ∧ c.Content = content ∧ c.Text = ""
      ∧ c.Image = none ∧ h1.cardImageOf r = none := by
  obtain ⟨h1, q, hrun1, hb1, hq1⟩ := WithSimpleCard_valid h a s title content hb
  obtain ⟨r, h2, hbuild, _, _, hbody, _, _, hcard, _⟩ := Build_observed h1 a _ hb1
  have hc : h2.cardOf r = some { Type_ := "Simple", Title := title, Content := content } :=
    cardOf_of_body hbody rfl (by rw [hcard]; exact hq1)
  refine ⟨r, h2, _, ?_, hc, rfl, rfl, rfl, rfl, rfl, ?_⟩
  · simp only [bind_run, hrun1]
    exact hbuild
  · simp [Heap.cardImageOf, hc]

/-- C9, an instance: the builder of `sampleHeap`, which holds a Standard card
with an image. -/
theorem WithSimpleCard_Build_simple_card_witness :
    sampleHeap.builder[0]? = some sampleBuilder
    ∧ sampleHeap.card[0]? = some { Title := "T", Text := "Txt", Image := some 0 }
    ∧ ∃ r h1 c, (WithSimpleCard (some 0) "T2" "C2" >>= fun b => Build b) sampleHeap
          = Except.ok (r, h1)
        ∧ h1.cardOf r = some c
        ∧ c.Type_ = "Simple" ∧ c.Title = "T2" ∧ c.Content = "C2" ∧ c.Text = ""
        ∧ c.Image = none ∧ h1.cardImageOf r = none :=
  ⟨rfl, rfl, WithSimpleCard_Build_simple_card sampleHeap 0 sampleBuilder "T2" "C2" rfl⟩

/-- C10: on every builder, `WithStandardCard(T, Txt, img)` then `Build` gives a
present card with title `T`, text `Txt`, a present image equal to `img`, empty
content, and an empty type: neither "Standard" nor "Simple". -/
theorem WithStandardCard_Build_standard_card (h : Heap) (a : Nat) (s : Builder)
    (title text : String) (image : Image) (hb : h.builder[a]? = some s) :
    ∃ r h1 c i, (WithStandardCard (some a) title text image >>= fun b => Build b) h
        = Except.ok (r, h1)
      ∧ h1.cardOf r = some c
      ∧ c.Title = title ∧ c.Text = text ∧ c.Content = ""
      ∧ c.Image = some i ∧ h1.cardImageOf r = some image
      ∧ c.Type_ = "" ∧ c.Type_ ≠ "Standard" ∧ c.Type_ ≠ "Simple" := by
  obtain ⟨h1, q, i, hrun1, hb1, hq1, hi1⟩ := WithStandardCard_valid h a s title text image hb
  obtain ⟨r, h2, hbuild, _, _, hbody, _, _, hcard, himage, _⟩ := Build_observed h1 a _ hb1
  have hc : h2.cardOf r = some { Title := title, Text := text, Image := some i } :=
    cardOf_of_body hbody rfl (by rw [hcard]; exact hq1)
  refine ⟨r, h2, _, i, ?_, hc, rfl, rfl, rfl, rfl,
    cardImageOf_of_card hc rfl (by rw [himage]; exact hi1), rfl,
    (show ("" : String) ≠ "Standard" by decide), (show ("" : String) ≠ "Simple" by decide)⟩
  simp only [bind_run, hrun1]
  exact hbuild

/-- C10, an instance: the builder of `sampleHeap`. -/
theorem WithStandardCard_Build_standard_card_witness :
    sampleHeap.builder[0]? = some sampleBuilder
    ∧ ∃ r h1 c, (WithStandardCard (some 0) "T" "Txt" { SmallImageURL := "s", LargeImageURL := "l" }
          >>= fun b => Build b) sampleHeap = Except.ok (r, h1)
        ∧ h1.cardOf r = some c ∧ c.Type_ = ""
        ∧ h1.cardImageOf r = some { SmallImageURL := "s", LargeImageURL := "l" } :=
  ⟨rfl,
    let ⟨r, h1, c, _, hrun, hc, _, _, _, _, himg, hty, _⟩ :=
      WithStandardCard_Build_standard_card sampleHeap 0 sampleBuilder "T" "Txt"
        { SmallImageURL := "s", LargeImageURL := "l" } rfl
    ⟨r, h1, c, hrun, hc, hty, himg⟩⟩

/-! ## The reprompt setters -/

theorem WithTextReprompt_absent (h : Heap) (a : Nat) (s : Builder) (text : String)
    (hb : h.builder[a]? = some s) (hn : s.reprompt = none) :
    WithTextReprompt (some a) text h = Except.ok (some a,
      { h with builder := h.builder.set a ({ s with reprompt := some h.reprompt.length }),
               speech := h.speech ++ [{ Type_ := "PlainText", Text := text }],
               reprompt := h.reprompt ++ [{ OutputSpeech := some h.speech.length }] }) := by
  have hlt := lt_of_getElem? hb
  simp [WithTextReprompt, bind_run, pure_run, getBuilder, getReprompt, setBuilder, setSpeech,
    readCell, writeCell, newSpeech, newReprompt, hb, hn, hlt]

theorem WithSsmlReprompt_absent (h : Heap) (a : Nat) (s : Builder) (ssml : String)
    (hb : h.builder[a]? = some s) (hn : s.reprompt = none) :
    WithSsmlReprompt (some a) ssml h = Except.ok (some a,
      { h with builder := h.builder.set a ({ s with reprompt := some h.reprompt.length }),
               speech := h.speech ++ [{ Type_ := "ssml", Ssml := ssml }],
               reprompt := h.reprompt ++ [{ OutputSpeech := some h.speech.length }] }) := by
  have hlt := lt_of_getElem? hb
  simp [WithSsmlReprompt, bind_run, pure_run, getBuilder, getReprompt, setBuilder, setSpeech,
    readCell, writeCell, newSpeech, newReprompt, hb, hn, hlt]

theorem RepromptPlayBehavior_absent (h : Heap) (a : Nat) (s : Builder) (behavior : String)
    (hb : h.builder[a]? = some s) (hn : s.reprompt = none) :
    RepromptPlayBehavior (some a) behavior h = Except.ok (some a,
      { h with builder := h.builder.set a ({ s with reprompt := some h.reprompt.length }),
               speech := h.speech ++ [{ PlayBehavior := behavior }],
               reprompt := h.reprompt ++ [{ OutputSpeech := some h.speech.length }] }) := by
  have hlt := lt_of_getElem? hb
  simp [RepromptPlayBehavior, bind_run, pure_run, getBuilder, getReprompt, setBuilder,
    setSpeech, readCell, writeCell, newSpeech, newReprompt, hb, hn, hlt]

/-- The builder's output speech after its reprompt was created: the builder
cell was rewritten and two cells were appended, the output speech is as before. -/
theorem builderSpeechOf_after_new_reprompt (h : Heap) (a : Nat) (s : Builder)
    (o : OutputSpeech) (p : Nat)
    (hb : h.builder[a]? = some s)
    (hvalid : ∀ q, s.outputSpeech = some q → q < h.speech.length) :
    Heap.builderSpeechOf
      { h with builder := h.builder.set a ({ s with reprompt := some p }),
               speech := h.speech ++ [o],
               reprompt := h.reprompt ++ [{ OutputSpeech := some h.speech.length }] } a
      = h.builderSpeechOf a := by
  have hlt := lt_of_getElem? hb
  cases hq : s.outputSpeech with
  | none => simp [Heap.builderSpeechOf, hb, hlt, hq]
  | some q =>
    have hlq := hvalid q hq
    simp [Heap.builderSpeechOf, hb, hlt, hq, List.getElem?_append_left hlq]

/-- The output speech of the builder's reprompt right after the reprompt was
created: the cell appended for it. -/
theorem builderRepromptSpeechOf_after_new_reprompt (h : Heap) (a : Nat) (s : Builder)
    (o : OutputSpeech) (hb : h.builder[a]? = some s) :
    Heap.builderRepromptSpeechOf
      { h with builder := h.builder.set a ({ s with reprompt := some h.reprompt.length }),
               speech := h.speech ++ [o],
               reprompt := h.reprompt ++ [{ OutputSpeech := some h.speech.length }] } a
      = some o := by
  have hlt := lt_of_getElem? hb
  simp [Heap.builderRepromptSpeechOf, hlt, getElem?_append_length]

/-- The builder's output speech after one output-speech cell was overwritten:
as before when it is another cell, the new contents when it is that cell. -/
theorem builderSpeechOf_after_write (h : Heap) (a q : Nat) (s : Builder) (o v : OutputSpeech)
    (hb : h.builder[a]? = some s) (hq : h.speech[q]? = some o) :
    (s.outputSpeech ≠ some q →
      Heap.builderSpeechOf { h with speech := h.speech.set q v } a = h.builderSpeechOf a)
    ∧ (s.outputSpeech = some q →
      Heap.builderSpeechOf { h with speech := h.speech.set q v } a = some v) := by
  constructor
  · intro hne
    cases hs : s.outputSpeech with
    | none => simp [Heap.builderSpeechOf, hb, hs]
    | some q0 =>
      have hne' : q0 ≠ q := fun e => hne (by rw [hs, e])
      simp only [Heap.builderSpeechOf, hb, hs, Option.some_bind]
      exact getElem?_set_of_ne _ _ hne'
  · intro he
    simp only [Heap.builderSpeechOf, hb, he, Option.some_bind]
    exact getElem?_set_of_some _ hq

/-- The output speech of the builder's reprompt after its cell was overwritten. -/
theorem builderRepromptSpeechOf_after_write (h : Heap) (a p q : Nat) (s : Builder)
    (rp : Reprompt) (o v : OutputSpeech)
    (hb : h.builder[a]? = some s) (hp : s.reprompt = some p) (hr : h.reprompt[p]? = some rp)
    (hpq : rp.OutputSpeech = some q) (hq : h.speech[q]? = some o) :
    Heap.builderRepromptSpeechOf { h with speech := h.speech.set q v } a = some v := by
  simp only [Heap.builderRepromptSpeechOf, hb, hp, hr, hpq, Option.some_bind]
  exact getElem?_set_of_some _ hq

/-- C11, the counterexample: the output speech of a built response is handed to
`WithReprompt`, so the reprompt and the builder share one output-speech object;
`WithTextReprompt` then changes the builder's top-level output speech. -/
theorem reprompt_setter_changes_shared_output_speech :
    ∃ r h1 h2 h3,
      (NewBuilder >>= fun b => OutputSpeechPlayBehavior b "ENQUEUE" >>= fun b => Build b) {}
          = Except.ok (r, h1)
      ∧ (h1.bodyOf r).map (fun body => body.OutputSpeech) = some (some 0)
      ∧ WithReprompt (some 0) { OutputSpeech := some 0 } h1 = Except.ok (some 0, h2)
      ∧ h2.builderSpeechOf 0 = some { PlayBehavior := "ENQUEUE" }
      ∧ h2.builderRepromptSpeechOf 0 = some { PlayBehavior := "ENQUEUE" }
      ∧ WithTextReprompt (some 0) "again?" h2 = Except.ok (some 0, h3)
      ∧ h3.builderSpeechOf 0
          = some { Type_ := "PlainText", Text := "again?", PlayBehavior := "ENQUEUE" }
      ∧ h3.builderSpeechOf 0 ≠ h2.builderSpeechOf 0 :=
  ⟨_, _, _, _, rfl, rfl, rfl, rfl, rfl, rfl, rfl, by decide⟩

/-- C11, amended: on a builder without reprompt, `WithTextReprompt(t)`,
`WithSsmlReprompt(t)` and `RepromptPlayBehavior(t)` create a reprompt whose
output speech is the zero value with type "PlainText" and text `t`, resp. type
"ssml" and ssml `t`, resp. play behavior `t`, and leave the builder's own output
speech as it was. On a builder whose reprompt is present with a present output
speech `o`, they overwrite only the type and the matching content field, resp.
only the play behavior, of `o`; the builder's own output speech is as it was
when it is another object than `o`, and shows the same write when the
reprompt's output speech is the builder's output-speech object itself. -/
theorem reprompt_setters_mirror_output_speech (h : Heap) (a : Nat) (s : Builder)
    (t : String) (hb : h.builder[a]? = some s)
    (hvalid : ∀ q, s.outputSpeech = some q → q < h.speech.length) :
    (s.reprompt = none →
      (∃ h1, WithTextReprompt (some a) t h = Except.ok (some a, h1)
        ∧ h1.builderRepromptSpeechOf a
          = some { Type_ := "PlainText", Text := t, Ssml := "", PlayBehavior := "" }
        ∧ h1.builderSpeechOf a = h.builderSpeechOf a)
      ∧ (∃ h1, WithSsmlReprompt (some a) t h = Except.ok (some a, h1)
        ∧ h1.builderRepromptSpeechOf a
          = some { Type_ := "ssml", Text := "", Ssml := t, PlayBehavior := "" }
        ∧ h1.builderSpeechOf a = h.builderSpeechOf a)
      ∧ (∃ h1, RepromptPlayBehavior (some a) t h = Except.ok (some a, h1)
        ∧ h1.builderRepromptSpeechOf a
          = some { Type_ := "", Text := "", Ssml := "", PlayBehavior := t }
        ∧ h1.builderSpeechOf a = h.builderSpeechOf a))
    ∧ (∀ p rp q o, s.reprompt = some p → h.reprompt[p]? = some rp →
        rp.OutputSpeech = some q → h.speech[q]? = some o →
      (∃ h1, WithTextReprompt (some a) t h = Except.ok (some a, h1)
        ∧ h1.builderRepromptSpeechOf a = some { o with Type_ := "PlainText", Text := t }
        ∧ (s.outputSpeech ≠ some q → h1.builderSpeechOf a = h.builderSpeechOf a)
        ∧ (s.outputSpeech = some q →
            h1.builderSpeechOf a = some { o with Type_ := "PlainText", Text := t }))
      ∧ (∃ h1, WithSsmlReprompt (some a) t h = Except.ok (some a, h1)
        ∧ h1.builderRepromptSpeechOf a = some { o with Type_ := "ssml", Ssml := t }
        ∧ (s.outputSpeech ≠ some q → h1.builderSpeechOf a = h.builderSpeechOf a)
        ∧ (s.outputSpeech = some q →
            h1.builderSpeechOf a = some { o with Type_ := "ssml", Ssml := t }))
      ∧ (∃ h1, RepromptPlayBehavior (some a) t h = Except.ok (some a, h1)
        ∧ h1.builderRepromptSpeechOf a = some { o with PlayBehavior := t }
        ∧ (s.outputSpeech ≠ some q → h1.builderSpeechOf a = h.builderSpeechOf a)
        ∧ (s.outputSpeech = some q →
            h1.builderSpeechOf a = some { o with PlayBehavior := t }))) := by
  constructor
  · intro hn
    exact ⟨⟨_, WithTextReprompt_absent h a s t hb hn,
        builderRepromptSpeechOf_after_new_reprompt h a s _ hb,
        builderSpeechOf_after_new_reprompt h a s _ _ hb hvalid⟩,
      ⟨_, WithSsmlReprompt_absent h a s t hb hn,
        builderRepromptSpeechOf_after_new_reprompt h a s _ hb,
        builderSpeechOf_after_new_reprompt h a s _ _ hb hvalid⟩,
      ⟨_, RepromptPlayBehavior_absent h a s t hb hn,
        builderRepromptSpeechOf_after_new_reprompt h a s _ hb,
        builderSpeechOf_after_new_reprompt h a s _ _ hb hvalid⟩⟩
  · intro p rp q o hp hr hpq hq
    exact ⟨⟨_, WithTextReprompt_present h a p q s rp o t hb hp hr hpq hq,
        builderRepromptSpeechOf_after_write h a p q s rp o _ hb hp hr hpq hq,
        (builderSpeechOf_after_write h a q s o _ hb hq).1,
        (builderSpeechOf_after_write h a q s o _ hb hq).2⟩,
      ⟨_, WithSsmlReprompt_present h a p q s rp o t hb hp hr hpq hq,
        builderRepromptSpeechOf_after_write h a p q s rp o _ hb hp hr hpq hq,
        (builderSpeechOf_after_write h a q s o _ hb hq).1,
        (builderSpeechOf_after_write h a q s o _ hb hq).2⟩,
      ⟨_, RepromptPlayBehavior_present h a p q s rp o t hb hp hr hpq hq,
        builderRepromptSpeechOf_after_write h a p q s rp o _ hb hp hr hpq hq,
        (builderSpeechOf_after_write h a q s o _ hb hq).1,
        (builderSpeechOf_after_write h a q s o _ hb hq).2⟩⟩

/-- C11, an instance: the builder of `sampleHeap`, whose reprompt holds the
output speech at address 1 while its own output speech is at address 0. -/
theorem reprompt_setters_mirror_output_speech_witness :
    sampleHeap.builder[0]? = some sampleBuilder
    ∧ (∀ q, sampleBuilder.outputSpeech = some q → q < sampleHeap.speech.length)
    ∧ sampleBuilder.outputSpeech ≠ some 1
    ∧ ∃ h1, WithTextReprompt (some 0) "again?" sampleHeap = Except.ok (some 0, h1)
        ∧ h1.builderRepromptSpeechOf 0 = some { Type_ := "PlainText", Text := "again?" }
        ∧ h1.builderSpeechOf 0 = sampleHeap.builderSpeechOf 0 :=
  have hvalid : ∀ q, sampleBuilder.outputSpeech = some q → q < sampleHeap.speech.length := by
    intro q hq
    simp only [sampleBuilder, Option.some.injEq] at hq
    subst hq
    decide
  have hne : sampleBuilder.outputSpeech ≠ some 1 := by decide
  ⟨rfl, hvalid, hne,
    let ⟨h1, hrun, hrs, hkeep, _⟩ :=
      ((reprompt_setters_mirror_output_speech sampleHeap 0 sampleBuilder "again?" rfl
        hvalid).2 0 { OutputSpeech := some 1 } 1
        { Type_ := "PlainText", Text := "still there?" } rfl rfl rfl rfl).1
    ⟨h1, hrun, hrs, hkeep hne⟩⟩

/-! ## The wholesale setters -/

/-- The call WithDirectives on a valid builder: the exact heap. -/
theorem WithDirectives_run (h : Heap) (a : Nat) (s : Builder) (d : Option (List Any))
    (hb : h.builder[a]? = some s) :
    WithDirectives (some a) d h = Except.ok (some a,
      { h with builder := h.builder.set a ({ s with directives := d }) }) := by
  have hlt := lt_of_getElem? hb
  simp [WithDirectives, bind_run, pure_run, setBuilder, readCell, writeCell, hb, hlt]

/-- The call WithOutputSpeech on a valid builder: the exact heap. -/
theorem WithOutputSpeech_run (h : Heap) (a : Nat) (s : Builder) (v : OutputSpeech)
    (hb : h.builder[a]? = some s) :
    WithOutputSpeech (some a) v h = Except.ok (some a,
      { h with builder := h.builder.set a ({ s with outputSpeech := some h.speech.length }),
               speech := h.speech ++ [v] }) := by
  have hlt := lt_of_getElem? hb
  simp [WithOutputSpeech, bind_run, pure_run, newSpeech, setBuilder, readCell, writeCell, hb,
    hlt]

/-- The call WithCard on a valid builder: the exact heap. -/
theorem WithCard_run (h : Heap) (a : Nat) (s : Builder) (c : Card)
    (hb : h.builder[a]? = some s) :
    WithCard (some a) c h = Except.ok (some a,
      { h with builder := h.builder.set a ({ s with card := some h.card.length }),
               card := h.card ++ [c] }) := by
  have hlt := lt_of_getElem? hb
  simp [WithCard, bind_run, pure_run, newCard, setBuilder, readCell, writeCell, hb, hlt]

/-- The call WithReprompt on a valid builder: the exact heap. -/
theorem WithReprompt_run (h : Heap) (a : Nat) (s : Builder) (rp : Reprompt)
    (hb : h.builder[a]? = some s) :
    WithReprompt (some a) rp h = Except.ok (some a,
      { h with builder := h.builder.set a ({ s with reprompt := some h.reprompt.length }),
               reprompt := h.reprompt ++ [rp] }) := by
  have hlt := lt_of_getElem? hb
  simp [WithReprompt, bind_run, pure_run, newReprompt, setBuilder, readCell, writeCell, hb,
    hlt]

/-- The call WithSimpleCard on a valid builder: the exact heap. -/
theorem WithSimpleCard_run (h : Heap) (a : Nat) (s : Builder) (title content : String)
    (hb : h.builder[a]? = some s) :
    WithSimpleCard (some a) title content h = Except.ok (some a,
      { h with builder := h.builder.set a ({ s with card := some h.card.length }),
               card := h.card ++ [{ Type_ := "Simple", Title := title, Content := content }] })
    := by
  have hlt := lt_of_getElem? hb
  simp [WithSimpleCard, bind_run, pure_run, newCard, setBuilder, readCell, writeCell, hb, hlt]

/-- The call WithStandardCard on a valid builder: the exact heap. -/
theorem WithStandardCard_run (h : Heap) (a : Nat) (s : Builder) (title text : String)
    (image : Image) (hb : h.builder[a]? = some s) :
    WithStandardCard (some a) title text image h = Except.ok (some a,
      { h with builder := h.builder.set a ({ s with card := some h.card.length }),
               card := h.card ++ [{ Title := title, Text := text,
                                    Image := some h.image.length }],
               image := h.image ++ [image] }) := by
  have hlt := lt_of_getElem? hb
  simp [WithStandardCard, bind_run, pure_run, newCard, newImage, setBuilder, readCell,
    writeCell, hb, hlt]

theorem repromptOf_of_body {h : Heap} {r : Response} {body : Body} {q : Nat}
    {rp : Reprompt} (hbody : h.bodyOf r = some body) (hq : body.Reprompt = some q)
    (hr : h.reprompt[q]? = some rp) : h.repromptOf r = some rp := by
  simp only [Heap.repromptOf, hbody, Option.some_bind, hq]
  exact hr

theorem WithAttributes_valid (h : Heap) (a : Nat) (s : Builder) (m : Any)
    (hb : h.builder[a]? = some s) :
    ∃ h1, WithAttributes (some a) m h = Except.ok (some a, h1)
      ∧ h1.builder[a]? = some { s with sessionAttributes := m } :=
  ⟨_, WithAttributes_run h a s m hb, getElem?_set_of_some _ hb⟩

theorem WithDirectives_valid (h : Heap) (a : Nat) (s : Builder) (d : Option (List Any))
    (hb : h.builder[a]? = some s) :
    ∃ h1, WithDirectives (some a) d h = Except.ok (some a, h1)
      ∧ h1.builder[a]? = some { s with directives := d } :=
  ⟨_, WithDirectives_run h a s d hb, getElem?_set_of_some _ hb⟩

theorem WithOutputSpeech_valid (h : Heap) (a : Nat) (s : Builder) (v : OutputSpeech)
    (hb : h.builder[a]? = some s) :
    ∃ h1 q, WithOutputSpeech (some a) v h = Except.ok (some a, h1)
      ∧ h1.builder[a]? = some { s with outputSpeech := some q }
      ∧ h1.speech[q]? = some v :=
  ⟨_, _, WithOutputSpeech_run h a s v hb, getElem?_set_of_some _ hb,
    getElem?_append_length _ _⟩

theorem WithCard_valid (h : Heap) (a : Nat) (s : Builder) (c : Card)
    (hb : h.builder[a]? = some s) :
    ∃ h1 q, WithCard (some a) c h = Except.ok (some a, h1)
      ∧ h1.builder[a]? = some { s with card := some q }
      ∧ h1.card[q]? = some c :=
  ⟨_, _, WithCard_run h a s c hb, getElem?_set_of_some _ hb, getElem?_append_length _ _⟩

theorem WithReprompt_valid (h : Heap) (a : Nat) (s : Builder) (rp : Reprompt)
    (hb : h.builder[a]? = some s) :
    ∃ h1 q, WithReprompt (some a) rp h = Except.ok (some a, h1)
      ∧ h1.builder[a]? = some { s with reprompt := some q }
      ∧ h1.reprompt[q]? = some rp :=
  ⟨_, _, WithReprompt_run h a s rp hb, getElem?_set_of_some _ hb,
    getElem?_append_length _ _⟩

/-- C13: `WithAttributes` and `WithDirectives` replace wholesale. On every
builder, after `WithAttributes(m1).WithAttributes(m2)` the built session
attributes are `m2`, and after `WithDirectives(d1).WithDirectives(d2)` the built
directives are the list `d2`; on a new builder `WithAttributes(m2)` alone leaves
nothing of the default empty map. -/
theorem attributes_and_directives_replace_wholesale (h : Heap) (m1 m2 : Any)
    (d1 d2 : Option (List Any)) :
    (∀ a s, h.builder[a]? = some s →
      (∃ r h1, (WithAttributes (some a) m1 >>= fun b => WithAttributes b m2 >>= fun b =>
            Build b) h = Except.ok (r, h1)
          ∧ r.SessionAttributes = m2)
      ∧ (∃ r h1 body, (WithDirectives (some a) d1 >>= fun b => WithDirectives b d2 >>= fun b =>
            Build b) h = Except.ok (r, h1)
          ∧ h1.bodyOf r = some body ∧ body.Directives = d2))
    ∧ (∃ r h1, (NewBuilder >>= fun b => WithAttributes b m2 >>= fun b => Build b) h
          = Except.ok (r, h1)
        ∧ r.SessionAttributes = m2) := by
  have attrs : ∀ (h : Heap) (a : Nat) (s : Builder) (m : Any), h.builder[a]? = some s →
      ∃ r h1, (WithAttributes (some a) m >>= fun b => Build b) h = Except.ok (r, h1)
        ∧ r.SessionAttributes = m := by
    intro h a s m hb
    obtain ⟨h1, hrun1, hb1⟩ := WithAttributes_valid h a s m hb
    obtain ⟨r, h2, hbuild, _, hattr, _⟩ := Build_observed h1 a _ hb1
    refine ⟨r, h2, ?_, hattr⟩
    simp only [bind_run, hrun1]
    exact hbuild
  constructor
  · intro a s hb
    constructor
    · obtain ⟨h1, hrun1, hb1⟩ := WithAttributes_valid h a s m1 hb
      obtain ⟨r, h2, hrun, hattr⟩ := attrs h1 a _ m2 hb1
      refine ⟨r, h2, ?_, hattr⟩
      rw [bind_run] at hrun ⊢
      simp only [hrun1]
      exact hrun
    · obtain ⟨h1, hrun1, hb1⟩ := WithDirectives_valid h a s d1 hb
      obtain ⟨h2, hrun2, hb2⟩ := WithDirectives_valid h1 a _ d2 hb1
      obtain ⟨r, h3, hbuild, _, _, hbody, _⟩ := Build_observed h2 a _ hb2
      refine ⟨r, h3, _, ?_, hbody, rfl⟩
      simp only [bind_run, hrun1, hrun2]
      exact hbuild
  · obtain ⟨h0, a, hrun0, hb0⟩ := NewBuilder_valid h
    obtain ⟨r, h2, hrun, hattr⟩ := attrs h0 a _ m2 hb0
    refine ⟨r, h2, ?_, hattr⟩
    rw [bind_run] at hrun ⊢
    simp only [hrun0]
    exact hrun

/-- C13, an instance: the builder of `sampleHeap`. -/
theorem attributes_and_directives_replace_wholesale_witness :
    sampleHeap.builder[0]? = some sampleBuilder
    ∧ ∃ r h1 body,
        (WithDirectives (some 0) (some [Any.int 1, Any.int 2]) >>= fun b =>
          WithDirectives b (some [Any.string "x", Any.string "y", Any.string "x"]) >>= fun b =>
          Build b) sampleHeap = Except.ok (r, h1)
        ∧ h1.bodyOf r = some body
        ∧ body.Directives = some [Any.string "x", Any.string "y", Any.string "x"] :=
  ⟨rfl, ((attributes_and_directives_replace_wholesale sampleHeap (Any.map []) Any.nil
    (some [Any.int 1, Any.int 2]) (some [Any.string "x", Any.string "y", Any.string "x"])).1
    0 sampleBuilder rfl).2⟩

/-- C14: the wholesale setters discard what the lazy setters accumulated. On
every builder, `WithOutputSpeech(v)` then `Build` gives exactly `v` as output
speech, `WithCard(c)` exactly `c` as card, `WithReprompt(rp)` exactly `rp` as
reprompt; in particular a play behavior set before `WithOutputSpeech(v)` on a
new builder is gone unless `v` carries it. -/
theorem wholesale_setters_replace (h : Heap) (v : OutputSpeech) (c : Card) (rp : Reprompt)
    (p : String) :
    (∀ a s, h.builder[a]? = some s →
      (∃ r h1, (WithOutputSpeech (some a) v >>= fun b => Build b) h = Except.ok (r, h1)
          ∧ h1.outputSpeechOf r = some v)
      ∧ (∃ r h1, (WithCard (some a) c >>= fun b => Build b) h = Except.ok (r, h1)
          ∧ h1.cardOf r = some c)
      ∧ (∃ r h1, (WithReprompt (some a) rp >>= fun b => Build b) h = Except.ok (r, h1)
          ∧ h1.repromptOf r = some rp))
    ∧ (∃ r h1, (NewBuilder >>= fun b => OutputSpeechPlayBehavior b p >>= fun b =>
          WithOutputSpeech b v >>= fun b => Build b) h = Except.ok (r, h1)
        ∧ h1.outputSpeechOf r = some v) := by
  have speech : ∀ (h : Heap) (a : Nat) (s : Builder), h.builder[a]? = some s →
      ∃ r h1, (WithOutputSpeech (some a) v >>= fun b => Build b) h = Except.ok (r, h1)
        ∧ h1.outputSpeechOf r = some v := by
    intro h a s hb
    obtain ⟨h1, q, hrun1, hb1, hq1⟩ := WithOutputSpeech_valid h a s v hb
    obtain ⟨r, h2, hbuild, _, _, hbody, _, hsp, _⟩ := Build_observed h1 a _ hb1
    refine ⟨r, h2, ?_, outputSpeechOf_of_body hbody rfl (by rw [hsp]; exact hq1)⟩
    simp only [bind_run, hrun1]
    exact hbuild
  constructor
  · intro a s hb
    refine ⟨speech h a s hb, ?_, ?_⟩
    · obtain ⟨h1, q, hrun1, hb1, hq1⟩ := WithCard_valid h a s c hb
      obtain ⟨r, h2, hbuild, _, _, hbody, _, _, hcard, _⟩ := Build_observed h1 a _ hb1
      refine ⟨r, h2, ?_, cardOf_of_body hbody rfl (by rw [hcard]; exact hq1)⟩
      simp only [bind_run, hrun1]
      exact hbuild
    · obtain ⟨h1, q, hrun1, hb1, hq1⟩ := WithReprompt_valid h a s rp hb
      obtain ⟨r, h2, hbuild, _, _, hbody, _, _, _, _, hrep⟩ := Build_observed h1 a _ hb1
      refine ⟨r, h2, ?_, repromptOf_of_body hbody rfl (by rw [hrep]; exact hq1)⟩
      simp only [bind_run, hrun1]
      exact hbuild
  · obtain ⟨h0, a, hrun0, hb0⟩ := NewBuilder_valid h
    obtain ⟨h1, q, hrun1, hb1, _⟩ := OutputSpeechPlayBehavior_valid h0 a _ p hb0
      (fun q' hq' => by simp at hq')
    obtain ⟨r, h2, hrun, hobs⟩ := speech h1 a _ hb1
    refine ⟨r, h2, ?_, hobs⟩
    rw [bind_run] at hrun
    simp only [bind_run, hrun0, hrun1]
    exact hrun

/-- C14, an instance: the builder of `sampleHeap`, whose output speech has play
behavior "ENQUEUE"; the new value carries none. -/
theorem wholesale_setters_replace_witness :
    sampleHeap.builder[0]? = some sampleBuilder
    ∧ sampleHeap.builderSpeechOf 0
        = some { Type_ := "PlainText", Text := "hello", PlayBehavior := "ENQUEUE" }
    ∧ ∃ r h1, (WithOutputSpeech (some 0) { Type_ := "ssml", Ssml := "<speak/>" } >>= fun b =>
          Build b) sampleHeap = Except.ok (r, h1)
        ∧ h1.outputSpeechOf r = some { Type_ := "ssml", Ssml := "<speak/>" } :=
  ⟨rfl, rfl, ((wholesale_setters_replace sampleHeap { Type_ := "ssml", Ssml := "<speak/>" } {}
    {} "").1 0 sampleBuilder rfl).1⟩

/-! ## The reprompt invariant -/

/-- One step of the invariant: the builder cell was replaced by one with the
same output-speech and reprompt pointers (or fresh, well-formed ones), no
output-speech cell was removed, every reprompt cell is still there. -/
theorem repromptReady_step {h h1 : Heap} {a : Nat} {s s1 : Builder}
    (hos : ∀ q, s.outputSpeech = some q → q < h.speech.length)
    (hrp : ∀ p, s.reprompt = some p →
      ∃ rp q, h.reprompt[p]? = some rp ∧ rp.OutputSpeech = some q ∧ q < h.speech.length)
    (hb1 : h1.builder[a]? = some s1)
    (hlen : h.speech.length ≤ h1.speech.length)
    (hpre : h.reprompt <+: h1.reprompt)
    (hos1 : s1.outputSpeech = s.outputSpeech
      ∨ ∃ q, s1.outputSpeech = some q ∧ q < h1.speech.length)
    (hrp1 : s1.reprompt = s.reprompt
      ∨ ∃ p q, s1.reprompt = some p ∧ h1.reprompt[p]? = some { OutputSpeech := some q }
          ∧ q < h1.speech.length) :
    h1.repromptReady a := by
  refine ⟨s1, hb1, ?_, ?_⟩
  · intro q hq
    rcases hos1 with e | ⟨q', e, hlt⟩
    · exact Nat.lt_of_lt_of_le (hos q (by rw [← e]; exact hq)) hlen
    · rw [e] at hq
      simp only [Option.some.injEq] at hq
      rw [← hq]
      exact hlt
  · intro p hp
    rcases hrp1 with e | ⟨p', q', e, hcell, hlt⟩
    · obtain ⟨rp, q, hcell, hq, hlt⟩ := hrp p (by rw [← e]; exact hp)
      exact ⟨rp, q, getElem?_of_extension hpre hcell, hq, Nat.lt_of_lt_of_le hlt hlen⟩
    · rw [e] at hp
      simp only [Option.some.injEq] at hp
      rw [← hp]
      exact ⟨_, q', hcell, rfl, hlt⟩

/-- Every call but `WithReprompt` runs to its end on a state of the invariant
and leaves a state of the invariant. -/
theorem Op.call_ready (op : Op) (hop : op.isWithReprompt = false) (h : Heap) (a : Nat)
    (hready : h.repromptReady a) :
    ∃ h1, op.call (some a) h = Except.ok (some a, h1) ∧ h1.repromptReady a := by
  obtain ⟨s, hb, hos, hrp⟩ := hready
  have hq_of : ∀ q, s.outputSpeech = some q → h.speech[q]? = some (h.speechOrZero s) := by
    intro q hq
    have hlq := hos q hq
    simp [Heap.speechOrZero, hq, hlq]
  cases op with
  | WithAttributes m =>
    exact ⟨_, WithAttributes_run h a s m hb,
      repromptReady_step hos hrp (getElem?_set_of_some _ hb) (Nat.le_refl _)
        (List.prefix_refl _) (Or.inl rfl) (Or.inl rfl)⟩
  | WithOutputSpeech v =>
    exact ⟨_, WithOutputSpeech_run h a s v hb,
      repromptReady_step hos hrp (getElem?_set_of_some _ hb)
        (by simp) (List.prefix_refl _) (Or.inr ⟨h.speech.length, rfl, by simp⟩) (Or.inl rfl)⟩
  | WithTextOutputSpeech t =>
    cases hn : s.outputSpeech with
    | none =>
      exact ⟨_, WithTextOutputSpeech_absent h a s t hb hn,
        repromptReady_step hos hrp (getElem?_set_of_some _ hb)
          (by simp) (List.prefix_refl _) (Or.inr ⟨h.speech.length, rfl, by simp⟩)
          (Or.inl rfl)⟩
    | some q =>
      exact ⟨_, WithTextOutputSpeech_present h a q s _ t hb hn (hq_of q hn),
        repromptReady_step hos hrp hb (by simp) (List.prefix_refl _) (Or.inl rfl)
          (Or.inl rfl)⟩
  | WithSsmlOutputSpeech t =>
    cases hn : s.outputSpeech with
    | none =>
      exact ⟨_, WithSsmlOutputSpeech_absent h a s t hb hn,
        repromptReady_step hos hrp (getElem?_set_of_some _ hb)
          (by simp) (List.prefix_refl _) (Or.inr ⟨h.speech.length, rfl, by simp⟩)
          (Or.inl rfl)⟩
    | some q =>
      exact ⟨_, WithSsmlOutputSpeech_present h a q s _ t hb hn (hq_of q hn),
        repromptReady_step hos hrp hb (by simp) (List.prefix_refl _) (Or.inl rfl)
          (Or.inl rfl)⟩
  | OutputSpeechPlayBehavior t =>
    cases hn : s.outputSpeech with
    | none =>
      exact ⟨_, OutputSpeechPlayBehavior_absent h a s t hb hn,
        repromptReady_step hos hrp (getElem?_set_of_some _ hb)
          (by simp) (List.prefix_refl _) (Or.inr ⟨h.speech.length, rfl, by simp⟩)
          (Or.inl rfl)⟩
    | some q =>
      exact ⟨_, OutputSpeechPlayBehavior_present h a q s _ t hb hn (hq_of q hn),
        repromptReady_step hos hrp hb (by simp) (List.prefix_refl _) (Or.inl rfl)
          (Or.inl rfl)⟩
  | WithCard c =>
    exact ⟨_, WithCard_run h a s c hb,
      repromptReady_step hos hrp (getElem?_set_of_some _ hb) (Nat.le_refl _)
        (List.prefix_refl _) (Or.inl rfl) (Or.inl rfl)⟩
  | WithSimpleCard title content =>
    exact ⟨_, WithSimpleCard_run h a s title content hb,
      repromptReady_step hos hrp (getElem?_set_of_some _ hb) (Nat.le_refl _)
        (List.prefix_refl _) (Or.inl rfl) (Or.inl rfl)⟩
  | WithStandardCard title text image =>
    exact ⟨_, WithStandardCard_run h a s title text image hb,
      repromptReady_step hos hrp (getElem?_set_of_some _ hb) (Nat.le_refl _)
        (List.prefix_refl _) (Or.inl rfl) (Or.inl rfl)⟩
  | WithReprompt rp => simp [Op.isWithReprompt] at hop
  | WithTextReprompt t =>
    cases hn : s.reprompt with
    | none =>
      exact ⟨_, WithTextReprompt_absent h a s t hb hn,
        repromptReady_step hos hrp (getElem?_set_of_some _ hb)
          (by simp) (List.prefix_append _ _) (Or.inl rfl)
          (Or.inr ⟨h.reprompt.length, h.speech.length, rfl, getElem?_append_length _ _,
            by simp⟩)⟩
    | some p =>
      obtain ⟨rp, q, hcell, hq, hlt⟩ := hrp p hn
      have ho : h.speech[q]? = some (h.speech[q]) := by simp [hlt]
      exact ⟨_, WithTextReprompt_present h a p q s rp _ t hb hn hcell hq ho,
        repromptReady_step hos hrp hb (by simp) (List.prefix_refl _) (Or.inl rfl)
          (Or.inl rfl)⟩
  | WithSsmlReprompt t =>
    cases hn : s.reprompt with
    | none =>
      exact ⟨_, WithSsmlReprompt_absent h a s t hb hn,
        repromptReady_step hos hrp (getElem?_set_of_some _ hb)
          (by simp) (List.prefix_append _ _) (Or.inl rfl)
          (Or.inr ⟨h.reprompt.length, h.speech.length, rfl, getElem?_append_length _ _,
            by simp⟩)⟩
    | some p =>
      obtain ⟨rp, q, hcell, hq, hlt⟩ := hrp p hn
      have ho : h.speech[q]? = some (h.speech[q]) := by simp [hlt]
      exact ⟨_, WithSsmlReprompt_present h a p q s rp _ t hb hn hcell hq ho,
        repromptReady_step hos hrp hb (by simp) (List.prefix_refl _) (Or.inl rfl)
          (Or.inl rfl)⟩
  | RepromptPlayBehavior t =>
    cases hn : s.reprompt with
    | none =>
      exact ⟨_, RepromptPlayBehavior_absent h a s t hb hn,
        repromptReady_step hos hrp (getElem?_set_of_some _ hb)
          (by simp) (List.prefix_append _ _) (Or.inl rfl)
          (Or.inr ⟨h.reprompt.length, h.speech.length, rfl, getElem?_append_length _ _,
            by simp⟩)⟩
    | some p =>
      obtain ⟨rp, q, hcell, hq, hlt⟩ := hrp p hn
      have ho : h.speech[q]? = some (h.speech[q]) := by simp [hlt]
      exact ⟨_, RepromptPlayBehavior_present h a p q s rp _ t hb hn hcell hq ho,
        repromptReady_step hos hrp hb (by simp) (List.prefix_refl _) (Or.inl rfl)
          (Or.inl rfl)⟩
  | WithDirectives d =>
    exact ⟨_, WithDirectives_run h a s d hb,
      repromptReady_step hos hrp (getElem?_set_of_some _ hb) (Nat.le_refl _)
        (List.prefix_refl _) (Or.inl rfl) (Or.inl rfl)⟩
  | ShouldEndSession e =>
    exact ⟨_, ShouldEndSession_run h a s e hb,
      repromptReady_step hos hrp (getElem?_set_of_some _ hb) (Nat.le_refl _)
        (List.prefix_refl _) (Or.inl rfl) (Or.inl rfl)⟩
  | Build =>
    obtain ⟨r, h1, hbuild, _, _, _, hbuilder, hsp, _, _, hrep⟩ := Build_observed h a s hb
    refine ⟨h1, ?_, repromptReady_step hos hrp (by rw [hbuilder]; exact hb)
      (Nat.le_of_eq (congrArg List.length hsp.symm)) (by simp [hrep]) (Or.inl rfl)
      (Or.inl rfl)⟩
    simp only [Op.call, bind_run, pure_run, hbuild]

/-- A sequence of calls without `WithReprompt` runs to its end on a state of
the invariant and leaves a state of the invariant. -/
theorem callAll_ready (ops : List Op) (hops : ∀ op ∈ ops, op.isWithReprompt = false) :
    ∀ (h : Heap) (a : Nat), h.repromptReady a →
      ∃ h1, callAll (some a) ops h = Except.ok (some a, h1) ∧ h1.repromptReady a := by
  induction ops with
  | nil =>
    intro h a hready
    exact ⟨h, rfl, hready⟩
  | cons op ops ih =>
    intro h a hready
    obtain ⟨h1, hrun1, hready1⟩ :=
      Op.call_ready op (hops op (List.mem_cons_self _ _)) h a hready
    obtain ⟨h2, hrun2, hready2⟩ :=
      ih (fun o ho => hops o (List.mem_cons_of_mem _ ho)) h1 a hready1
    refine ⟨h2, ?_, hready2⟩
    simp only [callAll, bind_run, hrun1]
    exact hrun2

/-- C15: in every state reached from `NewBuilder()` by a sequence of calls
without `WithReprompt`, the sequence has run to its end, and whenever the
reprompt of the builder is present its output speech is present (and leads to
a cell); in such a state `WithTextReprompt`, `WithSsmlReprompt` and
`RepromptPlayBehavior` return normally for every argument. -/
theorem reprompt_output_speech_present (h : Heap) (ops : List Op)
    (hops : ∀ op ∈ ops, op.isWithReprompt = false) :
    ∃ a h1 s, (NewBuilder >>= fun b => callAll b ops) h = Except.ok (some a, h1)
      ∧ h1.builder[a]? = some s
      ∧ (∀ p, s.reprompt = some p →
          ∃ rp q o, h1.reprompt[p]? = some rp ∧ rp.OutputSpeech = some q
            ∧ h1.speech[q]? = some o)
      ∧ (∀ t, (∃ h2, WithTextReprompt (some a) t h1 = Except.ok (some a, h2))
          ∧ (∃ h2, WithSsmlReprompt (some a) t h1 = Except.ok (some a, h2))
          ∧ (∃ h2, RepromptPlayBehavior (some a) t h1 = Except.ok (some a, h2))) := by
  obtain ⟨h0, a, hrun0, hb0⟩ := NewBuilder_valid h
  have hready0 : h0.repromptReady a :=
    ⟨_, hb0, fun q hq => by simp at hq, fun p hp => by simp at hp⟩
  obtain ⟨h1, hrun1, hready1⟩ := callAll_ready ops hops h0 a hready0
  obtain ⟨s, hb, _, hrp⟩ := hready1
  refine ⟨a, h1, s, ?_, hb, ?_, ?_⟩
  · simp only [bind_run, hrun0]
    exact hrun1
  · intro p hp
    obtain ⟨rp, q, hcell, hq, hlt⟩ := hrp p hp
    exact ⟨rp, q, h1.speech[q], hcell, hq, by simp [hlt]⟩
  · intro t
    have hready1 : h1.repromptReady a := ⟨s, hb, by assumption, hrp⟩
    exact ⟨(Op.call_ready (Op.WithTextReprompt t) rfl h1 a hready1).imp fun _ hx => hx.1,
      (Op.call_ready (Op.WithSsmlReprompt t) rfl h1 a hready1).imp fun _ hx => hx.1,
      (Op.call_ready (Op.RepromptPlayBehavior t) rfl h1 a hready1).imp fun _ hx => hx.1⟩

/-- C15, an instance: a sequence that creates the reprompt lazily, replaces the
output speech, builds, and sets the reprompt's play behavior. -/
theorem reprompt_output_speech_present_witness :
    (∀ op ∈ [Op.WithTextReprompt "again?", Op.WithOutputSpeech {}, Op.Build,
        Op.RepromptPlayBehavior "ENQUEUE"], op.isWithReprompt = false)
    ∧ ∃ a h1 s,
        (NewBuilder >>= fun b => callAll b [Op.WithTextReprompt "again?",
          Op.WithOutputSpeech {}, Op.Build, Op.RepromptPlayBehavior "ENQUEUE"]) {}
          = Except.ok (some a, h1)
        ∧ h1.builder[a]? = some s
        ∧ (∀ p, s.reprompt = some p →
            ∃ rp q o, h1.reprompt[p]? = some rp ∧ rp.OutputSpeech = some q
              ∧ h1.speech[q]? = some o) :=
  have hops : ∀ op ∈ [Op.WithTextReprompt "again?", Op.WithOutputSpeech {}, Op.Build,
      Op.RepromptPlayBehavior "ENQUEUE"], op.isWithReprompt = false := by
    intro op hop
    simp at hop
    rcases hop with rfl | rfl | rfl | rfl <;> rfl
  ⟨hops,
    let ⟨a, h1, s, hrun, hb, hrp, _⟩ := reprompt_output_speech_present {} _ hops
    ⟨a, h1, s, hrun, hb, hrp⟩⟩

/-! ## Order of the lazy output-speech setters -/

/-- C16: on every builder, `WithTextOutputSpeech(t)` then
`OutputSpeechPlayBehavior(p)` and the same two calls in the other order return
normally with the same builder and the same heap, hence the same `Build`
result; `WithTextOutputSpeech(t)` twice leaves the same heap as once; and
`WithTextOutputSpeech` and `WithSsmlOutputSpeech` do not commute: on a new
builder the two orders give the types "ssml" and "PlainText". -/
theorem lazy_output_speech_setters_order (h : Heap) (a : Nat) (s : Builder) (t p : String)
    (hb : h.builder[a]? = some s)
    (hvalid : ∀ q, s.outputSpeech = some q → q < h.speech.length) :
    (∃ h1, (WithTextOutputSpeech (some a) t >>= fun b => OutputSpeechPlayBehavior b p) h
          = Except.ok (some a, h1)
        ∧ (OutputSpeechPlayBehavior (some a) p >>= fun b => WithTextOutputSpeech b t) h
          = Except.ok (some a, h1)
        ∧ h1.builderSpeechOf a
          = some { h.speechOrZero s with Type_ := "PlainText", Text := t, PlayBehavior := p })
    ∧ (∃ r h2, (WithTextOutputSpeech (some a) t >>= fun b => OutputSpeechPlayBehavior b p
          >>= fun b => Build b) h = Except.ok (r, h2)
        ∧ (OutputSpeechPlayBehavior (some a) p >>= fun b => WithTextOutputSpeech b t
          >>= fun b => Build b) h = Except.ok (r, h2))
    ∧ (∃ h1, WithTextOutputSpeech (some a) t h = Except.ok (some a, h1)
        ∧ (WithTextOutputSpeech (some a) t >>= fun b => WithTextOutputSpeech b t) h
          = Except.ok (some a, h1))
    ∧ (∃ r1 h1 r2 h2 o1 o2,
        (NewBuilder >>= fun b => WithTextOutputSpeech b "a" >>= fun b =>
          WithSsmlOutputSpeech b "s" >>= fun b => Build b) {} = Except.ok (r1, h1)
        ∧ (NewBuilder >>= fun b => WithSsmlOutputSpeech b "s" >>= fun b =>
          WithTextOutputSpeech b "a" >>= fun b => Build b) {} = Except.ok (r2, h2)
        ∧ h1.outputSpeechOf r1 = some o1 ∧ h2.outputSpeechOf r2 = some o2
        ∧ o1.Type_ = "ssml" ∧ o2.Type_ = "PlainText" ∧ o1.Type_ ≠ o2.Type_) := by
  have hlt := lt_of_getElem? hb
  have commute : ∃ h1,
      (WithTextOutputSpeech (some a) t >>= fun b => OutputSpeechPlayBehavior b p) h
          = Except.ok (some a, h1)
      ∧ (OutputSpeechPlayBehavior (some a) p >>= fun b => WithTextOutputSpeech b t) h
          = Except.ok (some a, h1)
      ∧ h1.builder[a]? ≠ none
      ∧ h1.builderSpeechOf a
          = some { h.speechOrZero s with Type_ := "PlainText", Text := t, PlayBehavior := p }
      := by
    cases hn : s.outputSpeech with
    | none =>
      refine ⟨Heap.mk (h.builder.set a ({ s with outputSpeech := some h.speech.length }))
          (h.speech ++ [{ Type_ := "PlainText", Text := t, PlayBehavior := p }])
          h.card h.image h.reprompt h.body, ?_, ?_, ?_, ?_⟩
      · simp [WithTextOutputSpeech, OutputSpeechPlayBehavior, bind_run, pure_run, getBuilder,
          setBuilder, setSpeech, readCell, writeCell, newSpeech, hb, hn, hlt]
      · simp [WithTextOutputSpeech, OutputSpeechPlayBehavior, bind_run, pure_run, getBuilder,
          setBuilder, setSpeech, readCell, writeCell, newSpeech, hb, hn, hlt]
      · simp [hlt]
      · simp [Heap.builderSpeechOf, Heap.speechOrZero, hn, hlt, getElem?_append_length]
    | some q =>
      have hlq := hvalid q hn
      refine ⟨Heap.mk h.builder (h.speech.set q
          ({ h.speechOrZero s with Type_ := "PlainText", Text := t, PlayBehavior := p }))
          h.card h.image h.reprompt h.body, ?_, ?_, ?_, ?_⟩
      · simp [WithTextOutputSpeech, OutputSpeechPlayBehavior, bind_run, pure_run, getBuilder,
          setBuilder, setSpeech, readCell, writeCell, newSpeech, hb, hn, hlt, hlq,
          Heap.speechOrZero]
      · simp [WithTextOutputSpeech, OutputSpeechPlayBehavior, bind_run, pure_run, getBuilder,
          setBuilder, setSpeech, readCell, writeCell, newSpeech, hb, hn, hlt, hlq,
          Heap.speechOrZero]
      · simp [hb]
      · simp [Heap.builderSpeechOf, Heap.speechOrZero, hb, hn, hlq]
  refine ⟨?_, ?_, ?_, ?_⟩
  · obtain ⟨h1, e1, e2, _, e3⟩ := commute
    exact ⟨h1, e1, e2, e3⟩
  · obtain ⟨h1, e1, e2, hne, _⟩ := commute
    cases hs1 : h1.builder[a]? with
    | none => exact absurd hs1 hne
    | some s1 =>
      obtain ⟨r, h2, hbuild, _⟩ := Build_observed h1 a s1 hs1
      refine ⟨r, h2, ?_, ?_⟩
      · rw [bind_run] at e1
        rw [bind_run]
        cases hx : WithTextOutputSpeech (some a) t h with
        | error err => simp [hx] at e1
        | ok v =>
          obtain ⟨b1, hm⟩ := v
          simp only [hx] at e1
          simp only [bind_run, e1]
          exact hbuild
      · rw [bind_run] at e2
        rw [bind_run]
        cases hx : OutputSpeechPlayBehavior (some a) p h with
        | error err => simp [hx] at e2
        | ok v =>
          obtain ⟨b1, hm⟩ := v
          simp only [hx] at e2
          simp only [bind_run, e2]
          exact hbuild
  · cases hn : s.outputSpeech with
    | none =>
      refine ⟨_, WithTextOutputSpeech_absent h a s t hb hn, ?_⟩
      simp [WithTextOutputSpeech, bind_run, pure_run, getBuilder, setBuilder, setSpeech,
        readCell, writeCell, newSpeech, hb, hn, hlt]
    | some q =>
      have hlq := hvalid q hn
      have hq : h.speech[q]? = some (h.speechOrZero s) := by
        simp [Heap.speechOrZero, hn, hlq]
      refine ⟨_, WithTextOutputSpeech_present h a q s _ t hb hn hq, ?_⟩
      simp [WithTextOutputSpeech, bind_run, pure_run, getBuilder, setBuilder, setSpeech,
        readCell, writeCell, newSpeech, hb, hn, hlt, hlq, Heap.speechOrZero]
  · exact ⟨_, _, _, _, _, _, rfl, rfl, rfl, rfl, rfl, rfl, by decide⟩

/-- C16, an instance: the builder of `sampleHeap`. -/
theorem lazy_output_speech_setters_order_witness :
    sampleHeap.builder[0]? = some sampleBuilder
    ∧ (∀ q, sampleBuilder.outputSpeech = some q → q < sampleHeap.speech.length)
    ∧ ∃ h1, (WithTextOutputSpeech (some 0) "t" >>= fun b => OutputSpeechPlayBehavior b "p")
          sampleHeap = Except.ok (some 0, h1)
        ∧ (OutputSpeechPlayBehavior (some 0) "p" >>= fun b => WithTextOutputSpeech b "t")
          sampleHeap = Except.ok (some 0, h1) :=
  have hvalid : ∀ q, sampleBuilder.outputSpeech = some q → q < sampleHeap.speech.length := by
    intro q hq
    simp only [sampleBuilder, Option.some.injEq] at hq
    subst hq
    decide
  ⟨rfl, hvalid,
    let ⟨h1, e1, e2, _⟩ :=
      (lazy_output_speech_setters_order sampleHeap 0 sampleBuilder "t" "p" rfl hvalid).1
    ⟨h1, e1, e2⟩⟩

/-! ## The one cell a lazy setter assigns to -/

/-- A normal run of `WithTextOutputSpeech` leaves every output-speech cell but
the one `b.outputSpeech` points to as it was. -/
theorem WithTextOutputSpeech_frame (h : Heap) (a : Nat) (s : Builder) (t : String)
    (b' : Ptr) (h2 : Heap) (hb : h.builder[a]? = some s)
    (hcall : WithTextOutputSpeech (some a) t h = Except.ok (b', h2))
    (q' : Nat) (o : OutputSpeech) (hq' : h.speech[q']? = some o)
    (hne : s.outputSpeech ≠ some q') : h2.speech[q']? = some o := by
  have hlt := lt_of_getElem? hb
  cases hn : s.outputSpeech with
  | none =>
    rw [WithTextOutputSpeech_absent h a s t hb hn] at hcall
    simp only [Except.ok.injEq, Prod.mk.injEq] at hcall
    rw [← hcall.2]
    exact getElem?_append_of_some _ hq'
  | some q =>
    cases ho : h.speech[q]? with
    | none =>
      simp [WithTextOutputSpeech, bind_run, pure_run, getBuilder, setBuilder, setSpeech,
        readCell, writeCell, newSpeech, hb, hn, hlt, ho] at hcall
    | some o' =>
      rw [WithTextOutputSpeech_present h a q s o' t hb hn ho] at hcall
      simp only [Except.ok.injEq, Prod.mk.injEq] at hcall
      rw [← hcall.2]
      have hqq : q' ≠ q := fun e => hne (by rw [hn, e])
      exact (getElem?_set_of_ne _ _ hqq).trans hq'

/-- A normal run of `WithSsmlOutputSpeech` leaves every output-speech cell but
the one `b.outputSpeech` points to as it was. -/
theorem WithSsmlOutputSpeech_frame (h : Heap) (a : Nat) (s : Builder) (t : String)
    (b' : Ptr) (h2 : Heap) (hb : h.builder[a]? = some s)
    (hcall : WithSsmlOutputSpeech (some a) t h = Except.ok (b', h2))
    (q' : Nat) (o : OutputSpeech) (hq' : h.speech[q']? = some o)
    (hne : s.outputSpeech ≠ some q') : h2.speech[q']? = some o := by
  have hlt := lt_of_getElem? hb
  cases hn : s.outputSpeech with
  | none =>
    rw [WithSsmlOutputSpeech_absent h a s t hb hn] at hcall
    simp only [Except.ok.injEq, Prod.mk.injEq] at hcall
    rw [← hcall.2]
    exact getElem?_append_of_some _ hq'
  | some q =>
    cases ho : h.speech[q]? with
    | none =>
      simp [WithSsmlOutputSpeech, bind_run, pure_run, getBuilder, setBuilder, setSpeech,
        readCell, writeCell, newSpeech, hb, hn, hlt, ho] at hcall
    | some o' =>
      rw [WithSsmlOutputSpeech_present h a q s o' t hb hn ho] at hcall
      simp only [Except.ok.injEq, Prod.mk.injEq] at hcall
      rw [← hcall.2]
      have hqq : q' ≠ q := fun e => hne (by rw [hn, e])
      exact (getElem?_set_of_ne _ _ hqq).trans hq'

/-- A normal run of `OutputSpeechPlayBehavior` leaves every output-speech cell
but the one `b.outputSpeech` points to as it was. -/
theorem OutputSpeechPlayBehavior_frame (h : Heap) (a : Nat) (s : Builder) (t : String)
    (b' : Ptr) (h2 : Heap) (hb : h.builder[a]? = some s)
    (hcall : OutputSpeechPlayBehavior (some a) t h = Except.ok (b', h2))
    (q' : Nat) (o : OutputSpeech) (hq' : h.speech[q']? = some o)
    (hne : s.outputSpeech ≠ some q') : h2.speech[q']? = some o := by
  have hlt := lt_of_getElem? hb
  cases hn : s.outputSpeech with
  | none =>
    rw [OutputSpeechPlayBehavior_absent h a s t hb hn] at hcall
    simp only [Except.ok.injEq, Prod.mk.injEq] at hcall
    rw [← hcall.2]
    exact getElem?_append_of_some _ hq'
  | some q =>
    cases ho : h.speech[q]? with
    | none =>
      simp [OutputSpeechPlayBehavior, bind_run, pure_run, getBuilder, setBuilder, setSpeech,
        readCell, writeCell, newSpeech, hb, hn, hlt, ho] at hcall
    | some o' =>
      rw [OutputSpeechPlayBehavior_present h a q s o' t hb hn ho] at hcall
      simp only [Except.ok.injEq, Prod.mk.injEq] at hcall
      rw [← hcall.2]
      have hqq : q' ≠ q := fun e => hne (by rw [hn, e])
      exact (getElem?_set_of_ne _ _ hqq).trans hq'

/-- A normal run of `WithTextReprompt` leaves every output-speech cell but the
one `b.reprompt.OutputSpeech` points to as it was. -/
theorem WithTextReprompt_frame (h : Heap) (a : Nat) (s : Builder) (t : String)
    (b' : Ptr) (h2 : Heap) (hb : h.builder[a]? = some s)
    (hcall : WithTextReprompt (some a) t h = Except.ok (b', h2))
    (q' : Nat) (o : OutputSpeech) (hq' : h.speech[q']? = some o)
    (hne : ∀ p rp, s.reprompt = some p → h.reprompt[p]? = some rp →
      rp.OutputSpeech ≠ some q') : h2.speech[q']? = some o := by
  have hlt := lt_of_getElem? hb
  cases hn : s.reprompt with
  | none =>
    rw [WithTextReprompt_absent h a s t hb hn] at hcall
    simp only [Except.ok.injEq, Prod.mk.injEq] at hcall
    rw [← hcall.2]
    exact getElem?_append_of_some _ hq'
  | some p =>
    cases hr : h.reprompt[p]? with
    | none =>
      simp [WithTextReprompt, bind_run, pure_run, getBuilder, getReprompt, setBuilder,
        setSpeech, readCell, writeCell, newSpeech, newReprompt, hb, hn, hlt, hr] at hcall
    | some rp =>
      cases hpq : rp.OutputSpeech with
      | none =>
        simp [WithTextReprompt, bind_run, pure_run, getBuilder, getReprompt, setBuilder,
          setSpeech, readCell, writeCell, newSpeech, newReprompt, hb, hn, hlt, hr, hpq]
          at hcall
      | some q =>
        cases ho : h.speech[q]? with
        | none =>
          simp [WithTextReprompt, bind_run, pure_run, getBuilder, getReprompt, setBuilder,
            setSpeech, readCell, writeCell, newSpeech, newReprompt, hb, hn, hlt, hr, hpq, ho]
            at hcall
        | some o' =>
          rw [WithTextReprompt_present h a p q s rp o' t hb hn hr hpq ho] at hcall
          simp only [Except.ok.injEq, Prod.mk.injEq] at hcall
          rw [← hcall.2]
          have hqq : q' ≠ q := fun e => hne p rp hn hr (by rw [hpq, e])
          exact (getElem?_set_of_ne _ _ hqq).trans hq'

/-- A normal run of `WithSsmlReprompt` leaves every output-speech cell but the
one `b.reprompt.OutputSpeech` points to as it was. -/
theorem WithSsmlReprompt_frame (h : Heap) (a : Nat) (s : Builder) (t : String)
    (b' : Ptr) (h2 : Heap) (hb : h.builder[a]? = some s)
    (hcall : WithSsmlReprompt (some a) t h = Except.ok (b', h2))
    (q' : Nat) (o : OutputSpeech) (hq' : h.speech[q']? = some o)
    (hne : ∀ p rp, s.reprompt = some p → h.reprompt[p]? = some rp →
      rp.OutputSpeech ≠ some q') : h2.speech[q']? = some o := by
  have hlt := lt_of_getElem? hb
  cases hn : s.reprompt with
  | none =>
    rw [WithSsmlReprompt_absent h a s t hb hn] at hcall
    simp only [Except.ok.injEq, Prod.mk.injEq] at hcall
    rw [← hcall.2]
    exact getElem?_append_of_some _ hq'
  | some p =>
    cases hr : h.reprompt[p]? with
    | none =>
      simp [WithSsmlReprompt, bind_run, pure_run, getBuilder, getReprompt, setBuilder,
        setSpeech, readCell, writeCell, newSpeech, newReprompt, hb, hn, hlt, hr] at hcall
    | some rp =>
      cases hpq : rp.OutputSpeech with
      | none =>
        simp [WithSsmlReprompt, bind_run, pure_run, getBuilder, getReprompt, setBuilder,
          setSpeech, readCell, writeCell, newSpeech, newReprompt, hb, hn, hlt, hr, hpq]
          at hcall
      | some q =>
        cases ho : h.speech[q]? with
        | none =>
          simp [WithSsmlReprompt, bind_run, pure_run, getBuilder, getReprompt, setBuilder,
            setSpeech, readCell, writeCell, newSpeech, newReprompt, hb, hn, hlt, hr, hpq, ho]
            at hcall
        | some o' =>
          rw [WithSsmlReprompt_present h a p q s rp o' t hb hn hr hpq ho] at hcall
          simp only [Except.ok.injEq, Prod.mk.injEq] at hcall
          rw [← hcall.2]
          have hqq : q' ≠ q := fun e => hne p rp hn hr (by rw [hpq, e])
          exact (getElem?_set_of_ne _ _ hqq).trans hq'

/-- A normal run of `RepromptPlayBehavior` leaves every output-speech cell but
the one `b.reprompt.OutputSpeech` points to as it was. -/
theorem RepromptPlayBehavior_frame (h : Heap) (a : Nat) (s : Builder) (t : String)
    (b' : Ptr) (h2 : Heap) (hb : h.builder[a]? = some s)
    (hcall : RepromptPlayBehavior (some a) t h = Except.ok (b', h2))
    (q' : Nat) (o : OutputSpeech) (hq' : h.speech[q']? = some o)
    (hne : ∀ p rp, s.reprompt = some p → h.reprompt[p]? = some rp →
      rp.OutputSpeech ≠ some q') : h2.speech[q']? = some o := by
  have hlt := lt_of_getElem? hb
  cases hn : s.reprompt with
  | none =>
    rw [RepromptPlayBehavior_absent h a s t hb hn] at hcall
    simp only [Except.ok.injEq, Prod.mk.injEq] at hcall
    rw [← hcall.2]
    exact getElem?_append_of_some _ hq'
  | some p =>
    cases hr : h.reprompt[p]? with
    | none =>
      simp [RepromptPlayBehavior, bind_run, pure_run, getBuilder, getReprompt, setBuilder,
        setSpeech, readCell, writeCell, newSpeech, newReprompt, hb, hn, hlt, hr] at hcall
    | some rp =>
      cases hpq : rp.OutputSpeech with
      | none =>
        simp [RepromptPlayBehavior, bind_run, pure_run, getBuilder, getReprompt, setBuilder,
          setSpeech, readCell, writeCell, newSpeech, newReprompt, hb, hn, hlt, hr, hpq]
          at hcall
      | some q =>
        cases ho : h.speech[q]? with
        | none =>
          simp [RepromptPlayBehavior, bind_run, pure_run, getBuilder, getReprompt,
            setBuilder, setSpeech, readCell, writeCell, newSpeech, newReprompt, hb, hn, hlt,
            hr, hpq, ho] at hcall
        | some o' =>
          rw [RepromptPlayBehavior_present h a p q s rp o' t hb hn hr hpq ho] at hcall
          simp only [Except.ok.injEq, Prod.mk.injEq] at hcall
          rw [← hcall.2]
          have hqq : q' ≠ q := fun e => hne p rp hn hr (by rw [hpq, e])
          exact (getElem?_set_of_ne _ _ hqq).trans hq'

/-- Every call leaves every output-speech cell as it was, except the cell a lazy
setter assigns through: the one `b.outputSpeech` points to for the output-speech
setters, the one `b.reprompt.OutputSpeech` points to for the reprompt setters. -/
theorem Op.call_speech_frame (op : Op) (h : Heap) (a : Nat) (s : Builder) (b' : Ptr)
    (h2 : Heap) (hb : h.builder[a]? = some s)
    (hcall : op.call (some a) h = Except.ok (b', h2))
    (q' : Nat) (o : OutputSpeech) (hq' : h.speech[q']? = some o)
    (hos : op.writesOutputSpeech = true → s.outputSpeech ≠ some q')
    (hrs : op.writesRepromptSpeech = true →
      ∀ p rp, s.reprompt = some p → h.reprompt[p]? = some rp → rp.OutputSpeech ≠ some q') :
    h2.speech[q']? = some o := by
  have plain : op.writesInPlace = false → h2.speech[q']? = some o := by
    intro hw
    have hkept := Op.call_preserves op (some a) h b' h2 hcall
    exact getElem?_of_extension (hkept.2.2.2.2 (by simp [hw])) hq'
  cases op with
  | WithTextOutputSpeech t =>
    exact WithTextOutputSpeech_frame h a s t b' h2 hb hcall q' o hq' (hos rfl)
  | WithSsmlOutputSpeech t =>
    exact WithSsmlOutputSpeech_frame h a s t b' h2 hb hcall q' o hq' (hos rfl)
  | OutputSpeechPlayBehavior t =>
    exact OutputSpeechPlayBehavior_frame h a s t b' h2 hb hcall q' o hq' (hos rfl)
  | WithTextReprompt t =>
    exact WithTextReprompt_frame h a s t b' h2 hb hcall q' o hq' (hrs rfl)
  | WithSsmlReprompt t =>
    exact WithSsmlReprompt_frame h a s t b' h2 hb hcall q' o hq' (hrs rfl)
  | RepromptPlayBehavior t =>
    exact RepromptPlayBehavior_frame h a s t b' h2 hb hcall q' o hq' (hrs rfl)
  | _ => exact plain rfl

/-- C4, amended: the response of `Build` holds the builder's pointers. After any
further call on the builder, the body read through the response (which
sub-structures are present, the directives, the flag), its card, the card's
image and its reprompt cell are what they were when it was built. Its output
speech is what it was unless the call is a lazy output-speech setter, or a lazy
reprompt setter while the reprompt's output speech is the same object; its
reprompt's output speech is what it was unless the call is a lazy reprompt
setter, or a lazy output-speech setter while the two are the same object. A lazy
setter writes into the object the response shares with the builder, and the
response then shows the new field values there. -/
theorem Build_response_after_call (h : Heap) (a : Nat) (op : Op) (r : Response)
    (h1 h2 : Heap) (b' : Ptr)
    (hbuild : Build (some a) h = Except.ok (r, h1))
    (hcall : op.call (some a) h1 = Except.ok (b', h2)) :
    (∃ body, h1.bodyOf r = some body ∧ h2.bodyOf r = some body)
    ∧ (∀ c, h1.cardOf r = some c → h2.cardOf r = some c)
    ∧ (∀ i, h1.cardImageOf r = some i → h2.cardImageOf r = some i)
    ∧ (∀ p, h1.repromptOf r = some p → h2.repromptOf r = some p)
    ∧ (op.writesInPlace = false →
        (∀ o, h1.outputSpeechOf r = some o → h2.outputSpeechOf r = some o)
        ∧ (∀ o, h1.repromptSpeechOf r = some o → h2.repromptSpeechOf r = some o))
    ∧ (∀ t o, op = Op.WithTextOutputSpeech t → h1.outputSpeechOf r = some o →
        h2.outputSpeechOf r = some { o with Type_ := "PlainText", Text := t })
    ∧ (∀ t o, op = Op.WithSsmlOutputSpeech t → h1.outputSpeechOf r = some o →
        h2.outputSpeechOf r = some { o with Type_ := "ssml", Ssml := t })
    ∧ (∀ t o, op = Op.OutputSpeechPlayBehavior t → h1.outputSpeechOf r = some o →
        h2.outputSpeechOf r = some { o with PlayBehavior := t })
    ∧ (∀ t o, op = Op.WithTextReprompt t → h1.repromptSpeechOf r = some o →
        h2.repromptSpeechOf r = some { o with Type_ := "PlainText", Text := t })
    ∧ (∀ t o, op = Op.WithSsmlReprompt t → h1.repromptSpeechOf r = some o →
        h2.repromptSpeechOf r = some { o with Type_ := "ssml", Ssml := t })
    ∧ (∀ t o, op = Op.RepromptPlayBehavior t → h1.repromptSpeechOf r = some o →
        h2.repromptSpeechOf r = some { o with PlayBehavior := t })
    ∧ (∀ o, h1.outputSpeechOf r = some o → op.writesOutputSpeech = false →
        (op.writesRepromptSpeech = true → ∀ body rp, h1.bodyOf r = some body →
          h1.repromptOf r = some rp → rp.OutputSpeech ≠ body.OutputSpeech) →
        h2.outputSpeechOf r = some o)
    ∧ (∀ o, h1.repromptSpeechOf r = some o → op.writesRepromptSpeech = false →
        (op.writesOutputSpeech = true → ∀ body rp, h1.bodyOf r = some body →
          h1.repromptOf r = some rp → rp.OutputSpeech ≠ body.OutputSpeech) →
        h2.repromptSpeechOf r = some o)
    ∧ (∀ body rp, h1.bodyOf r = some body → h1.repromptOf r = some rp →
        rp.OutputSpeech = body.OutputSpeech →
        h2.repromptSpeechOf r = h2.outputSpeechOf r) := by
  obtain ⟨s, hb, hr, hh1⟩ := Build_ok_inv h a r h1 hbuild
  have hkept := Op.call_preserves op (some a) h1 b' h2 hcall
  obtain ⟨kcard, kimage, kreprompt, kbody, kspeech⟩ := hkept
  have hbody1 : h1.bodyOf r = some ⟨s.outputSpeech, s.card, s.reprompt, s.directives,
      s.shouldEndSession⟩ := by
    rw [hr, hh1]
    exact getElem?_append_length _ _
  have hbody2 : h2.bodyOf r = some ⟨s.outputSpeech, s.card, s.reprompt, s.directives,
      s.shouldEndSession⟩ := by
    have := getElem?_of_extension kbody (a := h.body.length) (by
      rw [hh1]
      exact getElem?_append_length _ _)
    rw [hr]
    exact this
  have hb1 : h1.builder[a]? = some s := by rw [hh1]; exact hb
  have hcard : ∀ c, h1.cardOf r = some c → h2.cardOf r = some c := by
    intro c hc
    simp only [Heap.cardOf, hbody1, hbody2, Option.some_bind] at hc ⊢
    cases hq : s.card with
    | none => simp [hq] at hc
    | some q =>
      simp only [hq, Option.some_bind] at hc ⊢
      exact getElem?_of_extension kcard hc
  have hrep : ∀ p, h1.repromptOf r = some p → h2.repromptOf r = some p := by
    intro p hp
    simp only [Heap.repromptOf, hbody1, hbody2, Option.some_bind] at hp ⊢
    cases hq : s.reprompt with
    | none => simp [hq] at hp
    | some q =>
      simp only [hq, Option.some_bind] at hp ⊢
      exact getElem?_of_extension kreprompt hp
  have hspeech1 : ∀ o, h1.outputSpeechOf r = some o →
      ∃ q, s.outputSpeech = some q ∧ h1.speech[q]? = some o := by
    intro o ho
    simp only [Heap.outputSpeechOf, hbody1, Option.some_bind] at ho
    cases hq : s.outputSpeech with
    | none => simp [hq] at ho
    | some q =>
      simp only [hq, Option.some_bind] at ho
      exact ⟨q, rfl, ho⟩
  have hrspeech1 : ∀ o, h1.repromptSpeechOf r = some o →
      ∃ p rp q, s.reprompt = some p ∧ h1.reprompt[p]? = some rp ∧ rp.OutputSpeech = some q
        ∧ h1.speech[q]? = some o := by
    intro o ho
    simp only [Heap.repromptSpeechOf, Heap.repromptOf, hbody1, Option.some_bind] at ho
    cases hp : s.reprompt with
    | none => simp [hp] at ho
    | some p =>
      simp only [hp, Option.some_bind] at ho
      cases hrp : h1.reprompt[p]? with
      | none => simp [hrp] at ho
      | some rp =>
        simp only [hrp, Option.some_bind] at ho
        cases hq : rp.OutputSpeech with
        | none => simp [hq] at ho
        | some q =>
          simp only [hq, Option.some_bind] at ho
          exact ⟨p, rp, q, rfl, hrp, hq, ho⟩
  have hspeech2 : ∀ q o, s.outputSpeech = some q → h2.speech[q]? = some o →
      h2.outputSpeechOf r = some o := by
    intro q o hq ho
    simp only [Heap.outputSpeechOf, hbody2, Option.some_bind, hq]
    exact ho
  have hrspeech2 : ∀ p rp q o, s.reprompt = some p → h2.reprompt[p]? = some rp →
      rp.OutputSpeech = some q → h2.speech[q]? = some o → h2.repromptSpeechOf r = some o := by
    intro p rp q o hp hrp hq ho
    simp only [Heap.repromptSpeechOf, Heap.repromptOf, hbody2, Option.some_bind, hp, hrp, hq]
    exact ho
  have hrepOf : ∀ p rp, s.reprompt = some p → h1.reprompt[p]? = some rp →
      h1.repromptOf r = some rp := by
    intro p rp hp hrp
    simp only [Heap.repromptOf, hbody1, Option.some_bind, hp]
    exact hrp
  refine ⟨⟨_, hbody1, hbody2⟩, hcard, ?_, hrep, ?_, ?_, ?_, ?_, ?_, ?_, ?_, ?_, ?_, ?_⟩
  · intro i hi
    simp only [Heap.cardImageOf] at hi ⊢
    cases hc : h1.cardOf r with
    | none => simp [hc] at hi
    | some c =>
      simp only [hc, hcard c hc, Option.some_bind] at hi ⊢
      cases hq : c.Image with
      | none => simp [hq] at hi
      | some q =>
        simp only [hq, Option.some_bind] at hi ⊢
        exact getElem?_of_extension kimage hi
  · intro hw
    have ks := kspeech (by simp [hw])
    constructor
    · intro o ho
      obtain ⟨q, hq, hoq⟩ := hspeech1 o ho
      exact hspeech2 q o hq (getElem?_of_extension ks hoq)
    · intro o ho
      obtain ⟨p, rp, q, hp, hrp, hq, hoq⟩ := hrspeech1 o ho
      exact hrspeech2 p rp q o hp (getElem?_of_extension kreprompt hrp) hq
        (getElem?_of_extension ks hoq)
  · intro t o hop ho
    obtain ⟨q, hq, hoq⟩ := hspeech1 o ho
    subst hop
    simp only [Op.call, WithTextOutputSpeech_present h1 a q s o t hb1 hq hoq, Except.ok.injEq,
      Prod.mk.injEq] at hcall
    refine hspeech2 q _ hq ?_
    rw [← hcall.2]
    exact getElem?_set_of_some _ hoq
  · intro t o hop ho
    obtain ⟨q, hq, hoq⟩ := hspeech1 o ho
    subst hop
    simp only [Op.call, WithSsmlOutputSpeech_present h1 a q s o t hb1 hq hoq, Except.ok.injEq,
      Prod.mk.injEq] at hcall
    refine hspeech2 q _ hq ?_
    rw [← hcall.2]
    exact getElem?_set_of_some _ hoq
  · intro t o hop ho
    obtain ⟨q, hq, hoq⟩ := hspeech1 o ho
    subst hop
    simp only [Op.call, OutputSpeechPlayBehavior_present h1 a q s o t hb1 hq hoq,
      Except.ok.injEq, Prod.mk.injEq] at hcall
    refine hspeech2 q _ hq ?_
    rw [← hcall.2]
    exact getElem?_set_of_some _ hoq
  · intro t o hop ho
    obtain ⟨p, rp, q, hp, hrp, hq, hoq⟩ := hrspeech1 o ho
    subst hop
    simp only [Op.call, WithTextReprompt_present h1 a p q s rp o t hb1 hp hrp hq hoq,
      Except.ok.injEq, Prod.mk.injEq] at hcall
    refine hrspeech2 p rp q _ hp ?_ hq ?_
    · rw [← hcall.2]
      exact hrp
    · rw [← hcall.2]
      exact getElem?_set_of_some _ hoq
  · intro t o hop ho
    obtain ⟨p, rp, q, hp, hrp, hq, hoq⟩ := hrspeech1 o ho
    subst hop
    simp only [Op.call, WithSsmlReprompt_present h1 a p q s rp o t hb1 hp hrp hq hoq,
      Except.ok.injEq, Prod.mk.injEq] at hcall
    refine hrspeech2 p rp q _ hp ?_ hq ?_
    · rw [← hcall.2]
      exact hrp
    · rw [← hcall.2]
      exact getElem?_set_of_some _ hoq
  · intro t o hop ho
    obtain ⟨p, rp, q, hp, hrp, hq, hoq⟩ := hrspeech1 o ho
    subst hop
    simp only [Op.call, RepromptPlayBehavior_present h1 a p q s rp o t hb1 hp hrp hq hoq,
      Except.ok.injEq, Prod.mk.injEq] at hcall
    refine hrspeech2 p rp q _ hp ?_ hq ?_
    · rw [← hcall.2]
      exact hrp
    · rw [← hcall.2]
      exact getElem?_set_of_some _ hoq
  · intro o ho hw hshare
    obtain ⟨q, hq, hoq⟩ := hspeech1 o ho
    refine hspeech2 q o hq (Op.call_speech_frame op h1 a s b' h2 hb1 hcall q o hoq ?_ ?_)
    · intro hw'
      rw [hw] at hw'
      exact absurd hw' (by decide)
    · intro hw' p rp hp hrp
      have hne := hshare hw' _ rp hbody1 (hrepOf p rp hp hrp)
      rw [← hq]
      exact hne
  · intro o ho hw hshare
    obtain ⟨p, rp, q, hp, hrp, hq, hoq⟩ := hrspeech1 o ho
    refine hrspeech2 p rp q o hp (getElem?_of_extension kreprompt hrp) hq
      (Op.call_speech_frame op h1 a s b' h2 hb1 hcall q o hoq ?_ ?_)
    · intro hw'
      have hne := hshare hw' _ rp hbody1 (hrepOf p rp hp hrp)
      intro e
      exact hne (by rw [hq]; exact e.symm)
    · intro hw'
      rw [hw] at hw'
      exact absurd hw' (by decide)
  · intro body rp hbody hrp hsame
    rw [hbody1] at hbody
    simp only [Option.some.injEq] at hbody
    subst hbody
    have hrp2 := hrep rp hrp
    simp only [Heap.repromptSpeechOf, hrp2, Heap.outputSpeechOf, hbody2, Option.some_bind,
      hsame]

/-- C4, an instance: a response built from `sampleHeap`, then the text of the
reprompt set on the builder; the reprompt's output speech is another object than
the output speech, and the output speech read through the response is as it
was. -/
theorem Build_response_after_call_witness :
    ∃ r h1 h2, Build (some 0) sampleHeap = Except.ok (r, h1)
      ∧ (Op.WithTextReprompt "again?").call (some 0) h1 = Except.ok (some 0, h2)
      ∧ h1.outputSpeechOf r
          = some { Type_ := "PlainText", Text := "hello", PlayBehavior := "ENQUEUE" }
      ∧ h2.outputSpeechOf r
          = some { Type_ := "PlainText", Text := "hello", PlayBehavior := "ENQUEUE" }
      ∧ h2.repromptSpeechOf r = some { Type_ := "PlainText", Text := "again?" } :=
  ⟨_, _, _, rfl, rfl, rfl,
    (Build_response_after_call sampleHeap 0 (Op.WithTextReprompt "again?") _ _ _ _ rfl
      rfl).2.2.2.2.2.2.2.2.2.2.2.1 _ rfl rfl
      (fun _ body rp hbody hrp => by
        have hb' : some body = some (Body.mk (some 0) (some 0) (some 0)
            (some [Any.string "d1", Any.string "d2"]) false) := hbody.symm
        have hr' : some rp = some (Reprompt.mk (some 1)) := hrp.symm
        cases hb'
        cases hr'
        decide),
    rfl⟩

/-! ## Chained setters -/

theorem set_of_same {α : Type} {l : List α} {a : Nat} {v : α} (hv : l[a]? = some v) :
    l.set a v = l := by
  induction l generalizing a with
  | nil => rfl
  | cons x l ih =>
    cases a with
    | zero =>
      have e : x = v := by simpa using hv
      rw [e]
      rfl
    | succ a =>
      have hv' : l[a]? = some v := by simpa using hv
      simp [ih hv']

theorem getElem?_append_of_ne {α : Type} (l : List α) (v : α) {b : Nat}
    (hne : b ≠ l.length) : (l ++ [v])[b]? = l[b]? := by
  induction l generalizing b with
  | nil =>
    cases b with
    | zero => exact absurd rfl hne
    | succ b => simp
  | cons x l ih =>
    cases b with
    | zero => simp
    | succ b =>
      have hne' : b ≠ l.length := fun e => hne (by simp [e])
      simpa using ih hne'

/-- The output speech of the builder's reprompt, read in a later heap in which
the builder still has the same reprompt pointer, the reprompt cells are the
same, and the cell of that output speech is unchanged. -/
theorem builderRepromptSpeechOf_kept (h h1 : Heap) (a : Nat) (s s1 : Builder)
    (o : OutputSpeech) (hb : h.builder[a]? = some s) (hb1 : h1.builder[a]? = some s1)
    (hrp : s1.reprompt = s.reprompt) (hcells : h1.reprompt = h.reprompt)
    (ho : h.builderRepromptSpeechOf a = some o)
    (hframe : ∀ p rp q, s.reprompt = some p → h.reprompt[p]? = some rp →
      rp.OutputSpeech = some q → h.speech[q]? = some o → h1.speech[q]? = some o) :
    h1.builderRepromptSpeechOf a = some o := by
  simp only [Heap.builderRepromptSpeechOf, hb, Option.some_bind] at ho
  simp only [Heap.builderRepromptSpeechOf, hb1, Option.some_bind, hrp, hcells]
  cases hp : s.reprompt with
  | none => simp [hp] at ho
  | some p =>
    simp only [hp, Option.some_bind] at ho ⊢
    cases hr : h.reprompt[p]? with
    | none => simp [hr] at ho
    | some rp =>
      simp only [hr, Option.some_bind] at ho ⊢
      cases hq : rp.OutputSpeech with
      | none => simp [hq] at ho
      | some q =>
        simp only [hq, Option.some_bind] at ho ⊢
        exact hframe p rp q hp hr hq ho

/-- C12: on every builder, `WithTextOutputSpeech(t)` returns the same builder;
the builder cell differs from what it was at most in its `outputSpeech` pointer
(created when nil, kept otherwise), the cell behind that pointer holds what it
held (or the zero value) with type "PlainText" and text `t`, and every other
output-speech cell and every card, image, reprompt and body cell is as it was,
so that the card, reprompt, directives, session attributes and flag of the
builder are unchanged; the output speech of the reprompt is unchanged too
unless it is that very cell. `ShouldEndSession(e)` returns the same builder with
the flag set to `e` and nothing else changed. And
`NewBuilder().WithTextOutputSpeech("hi").ShouldEndSession(false).Build()` has
version "1.0", flag false, output speech present, and card, reprompt and
directives absent. -/
theorem chained_setters_touch_own_field (h : Heap) (t : String) (e : Bool) :
    (∀ a s, h.builder[a]? = some s →
        (∀ q, s.outputSpeech = some q → q < h.speech.length) →
      (∃ h1 s1 q, WithTextOutputSpeech (some a) t h = Except.ok (some a, h1)
        ∧ h1.builder[a]? = some s1
        ∧ s1.card = s.card ∧ s1.reprompt = s.reprompt ∧ s1.directives = s.directives
        ∧ s1.sessionAttributes = s.sessionAttributes
        ∧ s1.shouldEndSession = s.shouldEndSession
        ∧ h1.card = h.card ∧ h1.image = h.image ∧ h1.reprompt = h.reprompt
        ∧ h1.body = h.body
        ∧ s1 = { s with outputSpeech := some q }
        ∧ (s.outputSpeech = none ∨ s.outputSpeech = some q)
        ∧ h1.builder = h.builder.set a s1
        ∧ h1.speech[q]? = some { h.speechOrZero s with Type_ := "PlainText", Text := t }
        ∧ (∀ q', q' ≠ q → h1.speech[q']? = h.speech[q']?)
        ∧ (∀ o, h.builderRepromptSpeechOf a = some o →
            (∀ p rp, s.reprompt = some p → h.reprompt[p]? = some rp →
              rp.OutputSpeech ≠ some q) →
            h1.builderRepromptSpeechOf a = some o)
        ∧ (∀ p rp, s.reprompt = some p → h.reprompt[p]? = some rp →
            rp.OutputSpeech = some q →
            h1.builderRepromptSpeechOf a
              = some { h.speechOrZero s with Type_ := "PlainText", Text := t }))
      ∧ (∃ h1, ShouldEndSession (some a) e h = Except.ok (some a, h1)
        ∧ h1.builder[a]? = some { s with shouldEndSession := e }
        ∧ h1.speech = h.speech ∧ h1.card = h.card ∧ h1.image = h.image
        ∧ h1.reprompt = h.reprompt ∧ h1.body = h.body
        ∧ h1.builder = h.builder.set a ({ s with shouldEndSession := e })))
    ∧ (∃ r h1 body,
        (NewBuilder >>= fun b => WithTextOutputSpeech b "hi" >>= fun b =>
          ShouldEndSession b false >>= fun b => Build b) h = Except.ok (r, h1)
        ∧ r.Version = "1.0" ∧ h1.bodyOf r = some body
        ∧ body.ShouldEndSession = false
        ∧ h1.outputSpeechOf r = some { Type_ := "PlainText", Text := "hi" }
        ∧ body.Card = none ∧ body.Reprompt = none ∧ body.Directives = none) := by
  constructor
  · intro a s hb hvalid
    constructor
    · have key : ∃ h1 s1 q, WithTextOutputSpeech (some a) t h = Except.ok (some a, h1)
          ∧ h1.builder[a]? = some s1
          ∧ h1.card = h.card ∧ h1.image = h.image ∧ h1.reprompt = h.reprompt
          ∧ h1.body = h.body
          ∧ s1 = { s with outputSpeech := some q }
          ∧ (s.outputSpeech = none ∨ s.outputSpeech = some q)
          ∧ h1.builder = h.builder.set a s1
          ∧ h1.speech[q]? = some { h.speechOrZero s with Type_ := "PlainText", Text := t }
          ∧ (∀ q', q' ≠ q → h1.speech[q']? = h.speech[q']?) := by
        cases hn : s.outputSpeech with
        | none =>
          refine ⟨_, _, h.speech.length, WithTextOutputSpeech_absent h a s t hb hn,
            getElem?_set_of_some _ hb, rfl, rfl, rfl, rfl, rfl, Or.inl rfl, rfl, ?_, ?_⟩
          · rw [speechOrZero_none h s hn]
            exact getElem?_append_length _ _
          · intro q' hne
            exact getElem?_append_of_ne _ _ hne
        | some q =>
          have hlq := hvalid q hn
          have hq : h.speech[q]? = some (h.speechOrZero s) := by
            simp [Heap.speechOrZero, hn, hlq]
          have hs : s = { s with outputSpeech := some q } := by
            cases s
            simp only [Builder.mk.injEq, true_and] at hn ⊢
            simp [hn]
          refine ⟨_, s, q, WithTextOutputSpeech_present h a q s _ t hb hn hq, hb,
            rfl, rfl, rfl, rfl, hs, Or.inr rfl, (set_of_same hb).symm,
            getElem?_set_of_some _ hq, ?_⟩
          intro q' hne
          exact getElem?_set_of_ne _ _ hne
      obtain ⟨h1, s1, q, hrun, hb1, e1, e2, e3, e4, hs1, hcase, hbl, hq1, hframe⟩ := key
      have hrp1 : s1.reprompt = s.reprompt := by rw [hs1]
      refine ⟨h1, s1, q, hrun, hb1, by rw [hs1], hrp1, by rw [hs1], by rw [hs1],
        by rw [hs1], e1, e2, e3, e4, hs1, hcase, hbl, hq1, hframe, ?_, ?_⟩
      · intro o ho hshare
        refine builderRepromptSpeechOf_kept h h1 a s s1 o hb hb1 hrp1 e3 ho ?_
        intro p rp q' hp hr hq' hcell
        have hne : q' ≠ q := fun e' => hshare p rp hp hr (by rw [hq', e'])
        rw [hframe q' hne]
        exact hcell
      · intro p rp hp hr hq'
        simp only [Heap.builderRepromptSpeechOf, hb1, Option.some_bind, hrp1, hp, e3, hr, hq']
        exact hq1
    · exact ⟨_, ShouldEndSession_run h a s e hb, getElem?_set_of_some _ hb,
        rfl, rfl, rfl, rfl, rfl, rfl⟩
  · obtain ⟨h0, a, hrun0, hb0⟩ := NewBuilder_valid h
    obtain ⟨h1, q, hrun1, hb1, hq1⟩ := WithTextOutputSpeech_valid h0 a _ "hi" hb0
      (fun q' hq' => by simp at hq')
    rw [speechOrZero_none h0 _ rfl] at hq1
    obtain ⟨s1, hs1, e1, e2, e3, e4⟩ : ∃ s1 : Builder, h1.builder[a]? = some s1
        ∧ s1.outputSpeech = some q ∧ s1.card = none ∧ s1.reprompt = none
        ∧ s1.directives = none := ⟨_, hb1, rfl, rfl, rfl, rfl⟩
    have hrun2 := ShouldEndSession_run h1 a s1 false hs1
    have hb2 : ({ h1 with builder := h1.builder.set a ({ s1 with shouldEndSession := false }) }
        : Heap).builder[a]? = some ({ s1 with shouldEndSession := false }) :=
      getElem?_set_of_some _ hs1
    obtain ⟨r, h3, hbuild, hver, _, hbody, _, hsp, _⟩ := Build_observed _ a _ hb2
    refine ⟨r, h3, _, ?_, hver, hbody, rfl,
      outputSpeechOf_of_body hbody e1 (by rw [hsp]; exact hq1), e2, e3, e4⟩
    simp only [bind_run, hrun0, hrun1, hrun2]
    exact hbuild

/-- C12, an instance: the builder of `sampleHeap`, whose reprompt holds the
output speech at address 1 while `WithTextOutputSpeech` writes the cell at
address 0. -/
theorem chained_setters_touch_own_field_witness :
    sampleHeap.builder[0]? = some sampleBuilder
    ∧ (∀ q, sampleBuilder.outputSpeech = some q → q < sampleHeap.speech.length)
    ∧ ∃ h1 s1, WithTextOutputSpeech (some 0) "bye" sampleHeap = Except.ok (some 0, h1)
        ∧ h1.builder[0]? = some s1 ∧ s1.reprompt = sampleBuilder.reprompt
        ∧ h1.reprompt = sampleHeap.reprompt
        ∧ h1.speech[1]? = sampleHeap.speech[1]? :=
  have hvalid : ∀ q, sampleBuilder.outputSpeech = some q → q < sampleHeap.speech.length := by
    intro q hq
    simp only [sampleBuilder, Option.some.injEq] at hq
    subst hq
    decide
  ⟨rfl, hvalid,
    let ⟨h1, s1, q, hrun, hb1, _, hrp, _, _, _, _, _, hrep, _, _, hcase, _, _, hframe, _⟩ :=
      ((chained_setters_touch_own_field sampleHeap "bye" true).1 0 sampleBuilder rfl
        hvalid).1
    have hq : q = 0 := by
      rcases hcase with hc | hc
      · exact absurd hc (by decide)
      · exact (Option.some.inj hc).symm
    ⟨h1, s1, hrun, hb1, hrp, hrep, hframe 1 (by rw [hq]; decide)⟩⟩

end Alexaresponse
